import Mathlib

/-!
# tonicpow-go: the client configuration layer and the request dispatcher

A shallow embedding of `client.go` (and of the `Error` model of `definitions.go`).

* Go values that a function mutates through a pointer are passed and returned explicitly.
* `time.Duration` and `int` are modelled by `Int`; no arithmetic is performed on them.
* `[]byte` is `List UInt8`; Go strings are modelled by `String`.
* The collaborators that live outside the package (the `encoding/json` codec, the
  `strings` helpers and the resty transport) are parameters of the embedding; a concrete
  instance `stdlib` is given for evaluation on concrete inputs.
* A run of `Request` either returns its two results or panics (nil pointer dereference);
  the transport operations invoked on the way are recorded in order.
-/

set_option autoImplicit false

namespace TonicPow

/-! ## Data model -/

/-- Raw bytes, Go's `[]byte`. -/
abbrev Bytes := List UInt8

/-- UTF-8 bytes of a string: the conversion `[]byte(s)`. -/
def bytesOf (s : String) : Bytes := s.data.flatMap String.utf8EncodeChar

/-- Go `error` values met in `client.go`, tagged by the operation that produced them. -/
inductive GoError where
  /-- Result of `errors.New(text)`. -/
  | errorsNew (text : String)
  /-- Result of `fmt.Errorf("%s", text)`. -/
  | fmtErrorf (text : String)
  /-- An error returned by `json.Marshal`. -/
  | jsonMarshal (text : String)
  /-- An error returned by `json.Unmarshal`. -/
  | jsonUnmarshal (text : String)
  /-- An error returned by one of the transport operations `Get`, `Post`, `Put`, `Delete`. -/
  | transport (text : String)
  deriving DecidableEq, Repr

/-- The text of an error, `err.Error()`. -/
def GoError.Error : GoError → String
  | .errorsNew t => t
  | .fmtErrorf t => t
  | .jsonMarshal t => t
  | .jsonUnmarshal t => t
  | .transport t => t

/-- The universal error response of the API (`definitions.go`, type `Error`). -/
structure Error where
  Code : Int := 0
  Data : String := ""
  IPAddress : String := ""
  Method : String := ""
  Message : String := ""
  RequestGUID : String := ""
  URL : String := ""
  deriving DecidableEq, Repr

/-- Timing data of a traced request, `resty.TraceInfo`; durations in nanoseconds. -/
structure TraceInfo where
  DNSLookup : Int := 0
  ConnTime : Int := 0
  TCPConnTime : Int := 0
  TLSHandshake : Int := 0
  ServerTime : Int := 0
  ResponseTime : Int := 0
  TotalTime : Int := 0
  IsConnReused : Bool := false
  IsConnWasIdle : Bool := false
  ConnIdleTime : Int := 0
  RequestAttempt : Int := 0
  deriving DecidableEq, Repr

/-- An `http.Header`: canonical key to list of values, at most one entry per key. -/
abbrev Header := List (String × List String)

/-- The fields of a `resty.Request` that the dispatcher touches. -/
structure RestyRequest where
  Header : Header := []
  Body : Option Bytes := none
  trace : Bool := false
  deriving DecidableEq, Repr

/-- What the dispatcher reads from a `resty.Response`: `StatusCode()`, `Body()` and
`Request.TraceInfo()`. -/
structure RestyResponse where
  StatusCode : Int
  Body : Bytes
  TraceInfo : TraceInfo := {}
  deriving DecidableEq, Repr

/-- A `resty.Client`: the timeout and retry count it was configured with and the behaviour
of its verb operations (verb, URL, request) on the network. -/
structure RestyClient where
  timeout : Int := 0
  retryCount : Int := 0
  execute : String → String → RestyRequest → Except String RestyResponse

/-- Type `environment`: a named environment with its base URL. -/
structure environment where
  name : String
  apiURL : String
  deriving DecidableEq, Repr

/-- Type `clientOptions`: all the configuration of a client. `customHeaders` lists the
entries of the Go map; the order of the list is the order in which the `range` of the call
under consideration visits them. Go chooses that order afresh at every `range`, so two
calls on one client are described by two permutations of the list (see `RequestSteps`). -/
structure clientOptions where
  apiKey : String := ""
  apiURL : String := ""
  environment : String := ""
  customHeaders : List (String × List String) := []
  httpTimeout : Int := 0
  requestTracing : Bool := false
  retryCount : Int := 0
  userAgent : String := ""
  deriving DecidableEq, Repr

/-- Type `Client`: the transport handle (a pointer, `none` is nil) and the options. -/
structure Client where
  httpClient : Option RestyClient := none
  options : clientOptions

/-- Type `StandardResponse`: the envelope returned by every request. The default value is
Go's zero value. -/
structure StandardResponse where
  Body : Bytes := []
  Error : Option Error := none
  StatusCode : Int := 0
  Tracing : TraceInfo := {}
  deriving DecidableEq, Repr

/-- Type `ClientOps`: a functional option, a mutation of the options. -/
abbrev ClientOps := clientOptions → clientOptions

/-- Values passed as `data interface{}`: the JSON-like values and values of a type that
`encoding/json` does not support (channels, functions). -/
inductive GoValue where
  | null
  | bool (b : Bool)
  | int (n : Int)
  | str (s : String)
  | list (items : List GoValue)
  | object (fields : List (String × GoValue))
  | unsupported (typeName : String)

/-- What `json.Unmarshal(body, &response.Error)` leaves behind: the pointer
`response.Error` (`none` is nil) and the returned error, if any. -/
structure UnmarshalResult where
  ptr : Option Error
  err : Option String
  deriving DecidableEq, Repr

/-- Library functions used by `client.go`. -/
structure Runtime where
  /-- Function `strings.ToLower`. -/
  ToLower : String → String
  /-- Function `strings.TrimSpace`. -/
  TrimSpace : String → String
  /-- Function `json.Marshal`. -/
  Marshal : GoValue → Except String Bytes
  /-- Function `json.Unmarshal` applied to a body and to the address of a pointer to the
  given `Error`. -/
  Unmarshal : Bytes → Error → UnmarshalResult

/-- Constants and variables that `client.go` refers to and that are declared in another
file of the package. -/
structure Constants where
  EnvironmentLive : environment
  EnvironmentStaging : environment
  EnvironmentDevelopment : environment
  environmentStagingName : String
  environmentStagingAlias : String
  environmentDevelopmentName : String
  environmentDevelopmentAlias : String
  defaultHTTPTimeout : Int
  defaultRetryCount : Int
  fieldAPIKey : String

/-- Constant `apiVersion`. -/
def apiVersion : String := "v1"

/-- Constant `defaultUserAgent`. -/
def defaultUserAgent : String := "go-tonicpow: " ++ apiVersion

/-- Constant `http.MethodGet`. -/
def MethodGet : String := "GET"

/-- Constant `http.MethodPost`. -/
def MethodPost : String := "POST"

/-- Constant `http.MethodPut`. -/
def MethodPut : String := "PUT"

/-- Constant `http.MethodDelete`. -/
def MethodDelete : String := "DELETE"

/-! ## HTTP headers (`net/http`, `net/textproto`) -/

/-- Function `validHeaderFieldByte`: the token characters of RFC 7230. -/
def validHeaderFieldByte (c : Char) : Bool :=
  c.isAlphanum || [33, 35, 36, 37, 38, 39, 42, 43, 45, 46, 94, 95, 96, 124, 126].contains c.toNat

/-- The rewriting loop of `canonicalMIMEHeaderKey`: upper case at the start and after each
dash, lower case elsewhere. -/
def canonicalLoop : Bool → List Char → List Char
  | _, [] => []
  | upper, c :: cs =>
    let c1 := if upper && c.isLower then c.toUpper
      else if !upper && c.isUpper then c.toLower else c
    c1 :: canonicalLoop (c1 == '-') cs

/-- Function `textproto.CanonicalMIMEHeaderKey`: a key containing a byte that is not a token
character is returned unchanged, any other key is put in canonical case. -/
def CanonicalMIMEHeaderKey (s : String) : String :=
  if s.data.all validHeaderFieldByte then String.mk (canonicalLoop true s.data) else s

/-- Assignment `h[key] = values` on a Go map. -/
def Header.assign (key : String) (values : List String) : Header → Header
  | [] => [(key, values)]
  | (k, vs) :: rest =>
    if k = key then (k, values) :: rest else (k, vs) :: Header.assign key values rest

/-- Lookup `h[key]` on a Go map. -/
def Header.lookup (key : String) : Header → Option (List String)
  | [] => none
  | (k, vs) :: rest => if k = key then some vs else Header.lookup key rest

/-- Method `http.Header.Set`: replaces the values of the canonical key by the one value. -/
def Header.Set (h : Header) (key value : String) : Header :=
  Header.assign (CanonicalMIMEHeaderKey key) [value] h

/-- Method `http.Header.Add`: appends the value to those of the canonical key. -/
def Header.Add (h : Header) (key value : String) : Header :=
  Header.assign (CanonicalMIMEHeaderKey key)
    (((Header.lookup (CanonicalMIMEHeaderKey key) h).getD []) ++ [value]) h

/-- Method `http.Header.Values`: the values of the canonical key, empty when absent. -/
def Header.Values (h : Header) (key : String) : List String :=
  (Header.lookup (CanonicalMIMEHeaderKey key) h).getD []

/-- Function `strconv.Itoa`. -/
def Itoa (n : Int) : String := toString n

/-! ## Configuration (`client.go`, lines 44 to 171) -/

/-- Function `WithEnvironment`. -/
def WithEnvironment (e : environment) : ClientOps :=
  fun c => { c with apiURL := e.apiURL, environment := e.name }

/-- Function `WithEnvironmentString`. -/
def WithEnvironmentString (rt : Runtime) (k : Constants) (e : String) : ClientOps :=
  let e := rt.ToLower (rt.TrimSpace e)
  if e = k.environmentStagingName ∨ e = k.environmentStagingAlias then
    WithEnvironment k.EnvironmentStaging
  else if e = k.environmentDevelopmentName ∨ e = k.environmentDevelopmentAlias then
    WithEnvironment k.EnvironmentDevelopment
  else
    WithEnvironment k.EnvironmentLive

/-- Function `WithHTTPTimeout`. -/
def WithHTTPTimeout (timeout : Int) : ClientOps :=
  fun c => { c with httpTimeout := timeout }

/-- Function `WithRequestTracing`. -/
def WithRequestTracing : ClientOps :=
  fun c => { c with requestTracing := true }

/-- Function `WithRetryCount`. -/
def WithRetryCount (retries : Int) : ClientOps :=
  fun c => { c with retryCount := retries }

/-- Function `WithUserAgent`. -/
def WithUserAgent (userAgent : String) : ClientOps :=
  fun c => { c with userAgent := userAgent }

/-- Function `WithAPIKey`. -/
def WithAPIKey (appAPIKey : String) : ClientOps :=
  fun c => { c with apiKey := appAPIKey }

/-- Function `WithCustomHeaders`. -/
def WithCustomHeaders (headers : List (String × List String)) : ClientOps :=
  fun c => { c with customHeaders := headers }

/-- Method `Client.WithCustomHTTPClient`. -/
def Client.WithCustomHTTPClient (c : Client) (client : Option RestyClient) : Client :=
  { c with httpClient := client }

/-- Method `Client.GetUserAgent`. -/
def Client.GetUserAgent (c : Client) : String := c.options.userAgent

/-- Method `Client.GetEnvironment`. -/
def Client.GetEnvironment (c : Client) : String := c.options.environment

/-- Function `defaultClientOptions`. -/
def defaultClientOptions (k : Constants) : clientOptions :=
  { apiURL := k.EnvironmentLive.apiURL
    environment := k.EnvironmentLive.name
    httpTimeout := k.defaultHTTPTimeout
    requestTracing := false
    retryCount := k.defaultRetryCount
    userAgent := defaultUserAgent }

/-- The loop `for _, opt := range opts { opt(client.options) }` of `NewClient`. -/
def applyOps : List ClientOps → clientOptions → clientOptions
  | [], o => o
  | opt :: rest, o => applyOps rest (opt o)

/-- Function `resty.New` followed by `SetTimeout` and `SetRetryCount`: `net` is the
behaviour of a default resty client on the network. -/
def restyNew (net : String → String → RestyRequest → Except String RestyResponse)
    (timeout retryCount : Int) : RestyClient :=
  { timeout := timeout, retryCount := retryCount, execute := net }

/-- Function `NewClient`: the two results, the client pointer and the error. -/
def NewClient (k : Constants) (net : String → String → RestyRequest → Except String RestyResponse)
    (opts : List ClientOps) : Option Client × Option GoError :=
  let defaults := defaultClientOptions k
  let client : Client := { options := defaults }
  let client := { client with options := applyOps opts client.options }
  if client.options.apiKey = "" then
    (none, some (GoError.errorsNew "missing an API Key"))
  else
    let client :=
      match client.httpClient with
      | none =>
        { client with
          httpClient := some (restyNew net client.options.httpTimeout client.options.retryCount) }
      | some _ => client
    (some client, none)

/-! ## The request dispatcher (`client.go`, lines 173 to 247) -/

/-- One invocation of a transport operation: the verb method called on the request, the
URL it was given and the request as it stood at that moment. -/
structure TransportCall where
  verb : String
  url : String
  req : RestyRequest
  deriving DecidableEq, Repr

/-- How a call of `Request` ends: it returns its two named results, or it panics with a
nil pointer dereference. -/
inductive Outcome where
  | returned (response : StandardResponse) (err : Option GoError)
  | panicked
  deriving DecidableEq, Repr

/-- A run of `Request`: the transport operations invoked, in order, and the outcome. -/
structure Run where
  calls : List TransportCall
  outcome : Outcome
  deriving DecidableEq, Repr

/-- Method `resty.Client.R`: a fresh request with an empty header. -/
def RestyClient.R (_c : RestyClient) : RestyRequest := {}

/-- Method `resty.Request.SetHeader`. -/
def RestyRequest.SetHeader (r : RestyRequest) (header value : String) : RestyRequest :=
  { r with Header := r.Header.Set header value }

/-- Method `resty.Request.SetBody` applied to `string(j)`. -/
def RestyRequest.SetBody (r : RestyRequest) (j : Bytes) : RestyRequest :=
  { r with Body := some j }

/-- Method `resty.Request.EnableTrace`. -/
def RestyRequest.EnableTrace (r : RestyRequest) : RestyRequest :=
  { r with trace := true }

/-- Lines 181 to 190: for a method other than GET and DELETE the payload is serialized
and attached with its `Content-Length` and `Content-Type`; a serialization error ends the
call. -/
def setRequestBody (rt : Runtime) (httpMethod : String) (data : GoValue) (req : RestyRequest) :
    Except GoError RestyRequest :=
  if httpMethod ≠ MethodGet ∧ httpMethod ≠ MethodDelete then
    match rt.Marshal data with
    | .error e => .error (GoError.jsonMarshal e)
    | .ok j =>
      let req := req.SetBody j
      let req := { req with Header := req.Header.Add "Content-Length" (Itoa j.length) }
      let req := { req with Header := req.Header.Set "Content-Type" "application/json" }
      .ok req
  else
    .ok req

/-- Lines 200 to 205: every value of every custom header is written with `Header.Set`,
keys in the order in which this `range` visits the map (the order of the given list),
values in list order. -/
def setCustomHeaders (customHeaders : List (String × List String)) (req : RestyRequest) :
    RestyRequest :=
  customHeaders.foldl
    (fun req entry =>
      entry.2.foldl (fun req value => { req with Header := req.Header.Set entry.1 value }) req)
    req

/-- Lines 178 to 205: the request handed to the transport, or the serialization error. -/
def buildRequest (rt : Runtime) (k : Constants) (httpClient : RestyClient) (o : clientOptions)
    (httpMethod : String) (data : GoValue) : Except GoError RestyRequest :=
  let req := httpClient.R.SetHeader "User-Agent" o.userAgent
  match setRequestBody rt httpMethod data req with
  | .error e => .error e
  | .ok req =>
    let req := if o.requestTracing then req.EnableTrace else req
    let req := { req with Header := req.Header.Set k.fieldAPIKey o.apiKey }
    .ok (setCustomHeaders o.customHeaders req)

/-- Lines 207 to 226: the `switch` on the method. A matching case invokes the transport
operation of that verb; there is no default case, so for any other method no operation is
invoked and `resp` stays nil (`none`). -/
def fire (httpClient : RestyClient) (httpMethod url : String) (req : RestyRequest) :
    List TransportCall × Except String (Option RestyResponse) :=
  if httpMethod = MethodPost then
    ([⟨MethodPost, url, req⟩], (httpClient.execute MethodPost url req).map some)
  else if httpMethod = MethodPut then
    ([⟨MethodPut, url, req⟩], (httpClient.execute MethodPut url req).map some)
  else if httpMethod = MethodDelete then
    ([⟨MethodDelete, url, req⟩], (httpClient.execute MethodDelete url req).map some)
  else if httpMethod = MethodGet then
    ([⟨MethodGet, url, req⟩], (httpClient.execute MethodGet url req).map some)
  else
    ([], .ok none)

/-- Lines 228 to 246: the envelope is filled from the response and the status code is
checked against the expected one. Reading `response.Error.Message` through a nil pointer
panics. -/
def classify (rt : Runtime) (o : clientOptions) (resp : RestyResponse) (expectedCode : Int) :
    Outcome :=
  let response : StandardResponse := {}
  let response := if o.requestTracing then { response with Tracing := resp.TraceInfo } else response
  let response := { response with StatusCode := resp.StatusCode }
  let response := { response with Body := resp.Body }
  if expectedCode > 0 ∧ response.StatusCode ≠ expectedCode then
    let r := rt.Unmarshal response.Body {}
    let response := { response with Error := r.ptr }
    match r.err with
    | some e => .returned response (some (GoError.jsonUnmarshal e))
    | none =>
      match response.Error with
      | none => .panicked
      | some apiError => .returned response (some (GoError.fmtErrorf apiError.Message))
  else
    .returned response none

/-- Method `Client.Request`. The named results start at their zero values, so an early
`return` yields the zero envelope with the error. A nil transport handle is dereferenced
when the request is created, and a nil `resp` (no case of the `switch` matched) when its
status code is read: both are nil pointer dereferences. -/
def Request (rt : Runtime) (k : Constants) (c : Client) (httpMethod requestEndpoint : String)
    (data : GoValue) (expectedCode : Int) : Run :=
  match c.httpClient with
  | none => ⟨[], .panicked⟩
  | some httpClient =>
    match buildRequest rt k httpClient c.options httpMethod data with
    | .error e => ⟨[], .returned {} (some e)⟩
    | .ok req =>
      match fire httpClient httpMethod (c.options.apiURL ++ requestEndpoint) req with
      | (calls, .error e) => ⟨calls, .returned {} (some (GoError.transport e))⟩
      | (calls, .ok none) => ⟨calls, .panicked⟩
      | (calls, .ok (some resp)) => ⟨calls, classify rt c.options resp expectedCode⟩

/-! ## A model of the library functions, for evaluation on concrete inputs

`encoding/json` is modelled for the destination type `**Error` and for payloads of type
`GoValue`. Error texts follow the Go library for type errors; for a syntax error only the
kind is kept (Go also names the offending character). -/

/-- A parsed JSON text; a number keeps its literal. -/
inductive JSON where
  | null
  | bool (b : Bool)
  | number (literal : String)
  | str (s : String)
  | array (items : List JSON)
  | object (members : List (String × JSON))

/-- The rune `utf8.RuneError`, U+FFFD. -/
def runeError : Char := Char.ofNat 0xFFFD

/-- JSON white space: space, tab, line feed, carriage return. -/
def isSpace (b : UInt8) : Bool := b == 32 || b == 9 || b == 10 || b == 13

/-- Drops leading JSON white space. -/
def skipSpace : Bytes → Bytes
  | [] => []
  | b :: bs => if isSpace b then skipSpace bs else b :: bs

/-- Function `utf8.DecodeRune` on a non-empty input: the rune and the remaining bytes. An
invalid or truncated encoding yields `runeError` and consumes one byte. -/
def decodeRune : Bytes → Char × Bytes
  | [] => (runeError, [])
  | b0 :: rest =>
    if b0 < 0x80 then (Char.ofNat b0.toNat, rest)
    else if 0xC2 ≤ b0 ∧ b0 ≤ 0xDF then
      match rest with
      | b1 :: r1 =>
        if 0x80 ≤ b1 ∧ b1 ≤ 0xBF then
          (Char.ofNat ((b0.toNat - 0xC0) * 64 + (b1.toNat - 0x80)), r1)
        else (runeError, rest)
      | [] => (runeError, rest)
    else if 0xE0 ≤ b0 ∧ b0 ≤ 0xEF then
      let lo : UInt8 := if b0 == 0xE0 then 0xA0 else 0x80
      let hi : UInt8 := if b0 == 0xED then 0x9F else 0xBF
      match rest with
      | b1 :: b2 :: r2 =>
        if lo ≤ b1 ∧ b1 ≤ hi ∧ 0x80 ≤ b2 ∧ b2 ≤ 0xBF then
          (Char.ofNat (((b0.toNat - 0xE0) * 64 + (b1.toNat - 0x80)) * 64 + (b2.toNat - 0x80)), r2)
        else (runeError, rest)
      | _ => (runeError, rest)
    else if 0xF0 ≤ b0 ∧ b0 ≤ 0xF4 then
      let lo : UInt8 := if b0 == 0xF0 then 0x90 else 0x80
      let hi : UInt8 := if b0 == 0xF4 then 0x8F else 0xBF
      match rest with
      | b1 :: b2 :: b3 :: r3 =>
        if lo ≤ b1 ∧ b1 ≤ hi ∧ 0x80 ≤ b2 ∧ b2 ≤ 0xBF ∧ 0x80 ≤ b3 ∧ b3 ≤ 0xBF then
          (Char.ofNat ((((b0.toNat - 0xF0) * 64 + (b1.toNat - 0x80)) * 64 + (b2.toNat - 0x80)) * 64
            + (b3.toNat - 0x80)), r3)
        else (runeError, rest)
      | _ => (runeError, rest)
    else (runeError, rest)

/-- Value of a hexadecimal digit. -/
def hexVal (b : UInt8) : Option Nat :=
  if 48 ≤ b ∧ b ≤ 57 then some (b.toNat - 48)
  else if 97 ≤ b ∧ b ≤ 102 then some (b.toNat - 87)
  else if 65 ≤ b ∧ b ≤ 70 then some (b.toNat - 55)
  else none

/-- Four hexadecimal digits, as after a `\u`. -/
def hex4 : Bytes → Option (Nat × Bytes)
  | a :: b :: c :: d :: rest =>
    match hexVal a, hexVal b, hexVal c, hexVal d with
    | some a, some b, some c, some d => some (((a * 16 + b) * 16 + c) * 16 + d, rest)
    | _, _, _, _ => none
  | _ => none

/-- Function `getu4`: the code unit of a leading `\uXXXX` escape. -/
def getu4 : Bytes → Option (Nat × Bytes)
  | b0 :: b1 :: rest => if b0 == 92 ∧ b1 == 117 then hex4 rest else none
  | _ => none

/-- The character denoted by a one-letter escape. -/
def simpleEscape (b : UInt8) : Option Char :=
  if b == 34 then some (Char.ofNat 34)
  else if b == 92 then some (Char.ofNat 92)
  else if b == 47 then some (Char.ofNat 47)
  else if b == 98 then some (Char.ofNat 8)
  else if b == 102 then some (Char.ofNat 12)
  else if b == 110 then some (Char.ofNat 10)
  else if b == 114 then some (Char.ofNat 13)
  else if b == 116 then some (Char.ofNat 9)
  else none

/-- Prepends a character to the result of the rest of a string. -/
def consChar (c : Char) : Option (List Char × Bytes) → Option (List Char × Bytes)
  | none => none
  | some (cs, rest) => some (c :: cs, rest)

/-- The characters of a string literal from just after its opening quote to its closing
quote, with the rest of the input; `none` when the literal is malformed. Escapes, surrogate
pairs and invalid UTF-8 are treated as by `unquote`. -/
def parseStringBody : Nat → Bytes → Option (List Char × Bytes)
  | 0, _ => none
  | _, [] => none
  | fuel + 1, b :: rest =>
    if b == 34 then some ([], rest)
    else if b < 32 then none
    else if b == 92 then
      match rest with
      | [] => none
      | e :: rest1 =>
        if e == 117 then
          match hex4 rest1 with
          | none => none
          | some (u, rest2) =>
            if 0xD800 ≤ u ∧ u < 0xE000 then
              match getu4 rest2 with
              | some (u2, rest4) =>
                if u < 0xDC00 ∧ 0xDC00 ≤ u2 ∧ u2 < 0xE000 then
                  consChar (Char.ofNat (0x10000 + (u - 0xD800) * 1024 + (u2 - 0xDC00)))
                    (parseStringBody fuel rest4)
                else consChar runeError (parseStringBody fuel rest2)
              | none => consChar runeError (parseStringBody fuel rest2)
            else consChar (Char.ofNat u) (parseStringBody fuel rest2)
        else
          match simpleEscape e with
          | some c => consChar c (parseStringBody fuel rest1)
          | none => none
    else if b < 128 then consChar (Char.ofNat b.toNat) (parseStringBody fuel rest)
    else
      let d := decodeRune (b :: rest)
      consChar d.1 (parseStringBody fuel d.2)

/-- A string literal whose opening quote has been consumed. -/
def parseString (bs : Bytes) : Option (String × Bytes) :=
  match parseStringBody (bs.length + 1) bs with
  | none => none
  | some (cs, rest) => some (String.mk cs, rest)

/-- Whether a byte is a decimal digit. -/
def isDigit (b : UInt8) : Bool := 48 ≤ b && b ≤ 57

/-- The leading decimal digits and the rest. -/
def takeDigits : Bytes → List Char × Bytes
  | [] => ([], [])
  | b :: bs =>
    if isDigit b then
      let r := takeDigits bs
      (Char.ofNat b.toNat :: r.1, r.2)
    else ([], b :: bs)

/-- The integer part of a number: `0`, or a non-zero digit followed by digits. -/
def parseIntPart (bs : Bytes) : Option (List Char × Bytes) :=
  match bs with
  | [] => none
  | b :: rest =>
    if b == 48 then some (['0'], rest)
    else if isDigit b then some (takeDigits (b :: rest))
    else none

/-- The optional fraction of a number. -/
def parseFraction (bs : Bytes) : Option (List Char × Bytes) :=
  match bs with
  | b :: rest =>
    if b == 46 then
      match takeDigits rest with
      | ([], _) => none
      | (ds, rest1) => some ('.' :: ds, rest1)
    else some ([], bs)
  | [] => some ([], bs)

/-- The digits of an exponent, after its optional sign. -/
def parseExponentDigits (pre : List Char) (bs : Bytes) : Option (List Char × Bytes) :=
  match takeDigits bs with
  | ([], _) => none
  | (ds, rest) => some (pre ++ ds, rest)

/-- The optional exponent of a number. -/
def parseExponent (bs : Bytes) : Option (List Char × Bytes) :=
  match bs with
  | b :: rest =>
    if b == 101 ∨ b == 69 then
      match rest with
      | s :: rest1 =>
        if s == 43 ∨ s == 45 then
          parseExponentDigits [Char.ofNat b.toNat, Char.ofNat s.toNat] rest1
        else parseExponentDigits [Char.ofNat b.toNat] rest
      | [] => none
    else some ([], bs)
  | [] => some ([], bs)

/-- A number literal. -/
def parseNumber (bs : Bytes) : Option (String × Bytes) :=
  let signed : List Char × Bytes :=
    match bs with
    | b :: rest => if b == 45 then (['-'], rest) else ([], bs)
    | [] => ([], bs)
  match parseIntPart signed.2 with
  | none => none
  | some (i, r1) =>
    match parseFraction r1 with
    | none => none
    | some (f, r2) =>
      match parseExponent r2 with
      | none => none
      | some (e, r3) => some (String.mk (signed.1 ++ i ++ f ++ e), r3)

/-- Removes the given literal from the front of the input. -/
def expectBytes : List UInt8 → Bytes → Option Bytes
  | [], bs => some bs
  | _ :: _, [] => none
  | x :: xs, b :: bs => if x == b then expectBytes xs bs else none

mutual
/-- A JSON value, after optional white space. -/
def parseValue : Nat → Bytes → Option (JSON × Bytes)
  | 0, _ => none
  | fuel + 1, bs =>
    match skipSpace bs with
    | [] => none
    | b :: rest =>
      if b == 123 then
        match skipSpace rest with
        | [] => none
        | c :: rest1 =>
          if c == 125 then some (JSON.object [], rest1)
          else
            match parseMembers fuel (c :: rest1) with
            | none => none
            | some (ms, rest2) => some (JSON.object ms, rest2)
      else if b == 91 then
        match skipSpace rest with
        | [] => none
        | c :: rest1 =>
          if c == 93 then some (JSON.array [], rest1)
          else
            match parseElements fuel (c :: rest1) with
            | none => none
            | some (xs, rest2) => some (JSON.array xs, rest2)
      else if b == 34 then
        match parseString rest with
        | none => none
        | some (str, rest1) => some (JSON.str str, rest1)
      else if b == 110 then (expectBytes [117, 108, 108] rest).map (fun r => (JSON.null, r))
      else if b == 116 then (expectBytes [114, 117, 101] rest).map (fun r => (JSON.bool true, r))
      else if b == 102 then
        (expectBytes [97, 108, 115, 101] rest).map (fun r => (JSON.bool false, r))
      else
        match parseNumber (b :: rest) with
        | none => none
        | some (lit, rest1) => some (JSON.number lit, rest1)
/-- The members of a non-empty object, from the opening quote of a key to the closing
brace. -/
def parseMembers : Nat → Bytes → Option (List (String × JSON) × Bytes)
  | 0, _ => none
  | _, [] => none
  | fuel + 1, q :: rest =>
    if q == 34 then
      match parseString rest with
      | none => none
      | some (key, rest1) =>
        match skipSpace rest1 with
        | [] => none
        | colon :: rest2 =>
          if colon == 58 then
            match parseValue fuel rest2 with
            | none => none
            | some (v, rest3) =>
              match skipSpace rest3 with
              | [] => none
              | sep :: rest4 =>
                if sep == 125 then some ([(key, v)], rest4)
                else if sep == 44 then
                  match parseMembers fuel (skipSpace rest4) with
                  | none => none
                  | some (ms, rest5) => some ((key, v) :: ms, rest5)
                else none
          else none
    else none
/-- The elements of a non-empty array, up to the closing bracket. -/
def parseElements : Nat → Bytes → Option (List JSON × Bytes)
  | 0, _ => none
  | fuel + 1, bs =>
    match parseValue fuel bs with
    | none => none
    | some (v, rest) =>
      match skipSpace rest with
      | [] => none
      | sep :: rest1 =>
        if sep == 93 then some ([v], rest1)
        else if sep == 44 then
          match parseElements fuel rest1 with
          | none => none
          | some (vs, rest2) => some (v :: vs, rest2)
        else none
end

/-- A complete JSON text: one value surrounded by optional white space (what `checkValid`
accepts). -/
def parseJSON (bs : Bytes) : Option JSON :=
  match parseValue (bs.length + 1) bs with
  | none => none
  | some (v, rest) => if (skipSpace rest).isEmpty then some v else none

/-- The value of a string of decimal digits. -/
def digitsValue (cs : List Char) : Nat :=
  cs.foldl (fun n c => n * 10 + (c.toNat - 48)) 0

/-- Function `strconv.ParseInt(s, 10, 64)` on a JSON number literal: the value when the
literal is an integer in the range of `int64`. -/
def parseInt64 (literal : String) : Option Int :=
  let neg := literal.data.head? == some '-'
  let ds := if neg then literal.data.drop 1 else literal.data
  if ds.all Char.isDigit ∧ ds ≠ [] then
    let n : Int := if neg then -(digitsValue ds : Int) else (digitsValue ds : Int)
    if -(2 : Int) ^ 63 ≤ n ∧ n < (2 : Int) ^ 63 then some n else none
  else none

/-- Function `foldRune` restricted to the runes whose fold orbit meets ASCII. -/
def foldRune (c : Char) : Char :=
  if c.isLower then c.toUpper
  else if c.toNat = 0x17F then 'S'
  else if c.toNat = 0x212A then 'K'
  else c

/-- Function `foldName`: the key used for case-insensitive field lookup. -/
def foldName (s : String) : String := String.mk (s.data.map foldRune)

/-- The JSON names of the fields of `Error`, in declaration order. -/
def errorFields : List String :=
  ["code", "data", "ip_address", "method", "message", "request_guid", "url"]

/-- The field of `Error` that a JSON key addresses: an exact match, else a match up to
case folding. -/
def findField (key : String) : Option String :=
  match errorFields.find? (fun f => f == key) with
  | some f => some f
  | none => errorFields.find? (fun f => foldName f == foldName key)

/-- The text of an `UnmarshalTypeError` raised inside a field of `Error`. -/
def fieldTypeError (value field goType : String) : String :=
  "json: cannot unmarshal " ++ value ++ " into Go struct field Error." ++ field ++
    " of type " ++ goType

/-- The description of a JSON value in an `UnmarshalTypeError`. -/
def JSON.describe : JSON → String
  | .null => "null"
  | .bool _ => "bool"
  | .number _ => "number"
  | .str _ => "string"
  | .array _ => "array"
  | .object _ => "object"

/-- Stores a string into the field of that JSON name. -/
def setStringField (e : Error) (field s : String) : Error :=
  if field = "data" then { e with Data := s }
  else if field = "ip_address" then { e with IPAddress := s }
  else if field = "method" then { e with Method := s }
  else if field = "message" then { e with Message := s }
  else if field = "request_guid" then { e with RequestGUID := s }
  else if field = "url" then { e with URL := s }
  else e

/-- Decodes one JSON value into one field of `Error`: the updated value and the type
error, if any. A `null` leaves the field as it is. -/
def storeField (e : Error) (field : String) (v : JSON) : Error × Option String :=
  match v with
  | .null => (e, none)
  | .number lit =>
    if field = "code" then
      match parseInt64 lit with
      | some n => ({ e with Code := n }, none)
      | none => (e, some (fieldTypeError ("number " ++ lit) field "int"))
    else (e, some (fieldTypeError "number" field "string"))
  | .str s =>
    if field = "code" then (e, some (fieldTypeError "string" field "int"))
    else (setStringField e field s, none)
  | other =>
    (e, some (fieldTypeError other.describe field (if field = "code" then "int" else "string")))

/-- Decodes the members of an object into an `Error`, in order; the first type error is
kept and decoding goes on. -/
def decodeMembers : List (String × JSON) → Error × Option String → Error × Option String
  | [], acc => acc
  | (key, v) :: rest, (e, err) =>
    match findField key with
    | none => decodeMembers rest (e, err)
    | some field =>
      let r := storeField e field v
      decodeMembers rest (r.1, if err.isSome then err else r.2)

/-- Function `json.Unmarshal(body, &p)` where `p` points to the `Error` value `e`: a body
that is not valid JSON is a syntax error and leaves `e` untouched; the literal `null` sets
the pointer `p` to nil; an object is decoded field by field; any other value is a type
error. -/
def unmarshalError (body : Bytes) (e : Error) : UnmarshalResult :=
  match parseJSON body with
  | none => ⟨some e, some "json: syntax error"⟩
  | some .null => ⟨none, none⟩
  | some (.object ms) =>
    let r := decodeMembers ms (e, none)
    ⟨some r.1, r.2⟩
  | some other =>
    ⟨some e, some ("json: cannot unmarshal " ++ other.describe ++
      " into Go value of type tonicpow.Error")⟩

/-- A lower-case hexadecimal digit. -/
def hexDigit (n : Nat) : Char :=
  if n < 10 then Char.ofNat (48 + n) else Char.ofNat (87 + n)

/-- The escape `\u00XX` of a character below U+0100. -/
def escapeU00 (c : Char) : List Char :=
  [Char.ofNat 92, 'u', '0', '0', hexDigit (c.toNat / 16), hexDigit (c.toNat % 16)]

/-- One character of a string as `json.Marshal` writes it (HTML escaping on): quote and
backslash are escaped, control characters and the characters `<`, `>`, `&`, U+2028 and
U+2029 are written as escapes, any other character is written as it is. -/
def encodeChar (c : Char) : List Char :=
  if c.toNat = 34 ∨ c.toNat = 92 then [Char.ofNat 92, c]
  else if c.toNat = 8 then [Char.ofNat 92, 'b']
  else if c.toNat = 12 then [Char.ofNat 92, 'f']
  else if c.toNat = 10 then [Char.ofNat 92, 'n']
  else if c.toNat = 13 then [Char.ofNat 92, 'r']
  else if c.toNat = 9 then [Char.ofNat 92, 't']
  else if c.toNat < 32 ∨ c.toNat = 60 ∨ c.toNat = 62 ∨ c.toNat = 38 then escapeU00 c
  else if c.toNat = 0x2028 then [Char.ofNat 92, 'u', '2', '0', '2', '8']
  else if c.toNat = 0x2029 then [Char.ofNat 92, 'u', '2', '0', '2', '9']
  else [c]

/-- A string as a JSON string literal. -/
def encodeString (s : String) : List Char :=
  [Char.ofNat 34] ++ s.data.flatMap encodeChar ++ [Char.ofNat 34]

mutual
/-- The compact JSON text of a value, or the error for a value of an unsupported type. An
object is written with its fields in the listed order (declaration order for a struct,
sorted keys for a map). -/
def encodeValue : GoValue → Except String (List Char)
  | .null => .ok "null".data
  | .bool b => .ok (if b then "true".data else "false".data)
  | .int n => .ok (toString n).data
  | .str s => .ok (encodeString s)
  | .list items =>
    match encodeItems items with
    | .error e => .error e
    | .ok cs => .ok ('[' :: cs ++ [']'])
  | .object fields =>
    match encodeFields fields with
    | .error e => .error e
    | .ok cs => .ok (Char.ofNat 123 :: cs ++ [Char.ofNat 125])
  | .unsupported typeName => .error ("json: unsupported type: " ++ typeName)
/-- The elements of an array, separated by commas. -/
def encodeItems : List GoValue → Except String (List Char)
  | [] => .ok []
  | [v] => encodeValue v
  | v :: w :: rest =>
    match encodeValue v, encodeItems (w :: rest) with
    | .ok a, .ok b => .ok (a ++ ',' :: b)
    | .error e, _ => .error e
    | _, .error e => .error e
/-- The members of an object, separated by commas. -/
def encodeFields : List (String × GoValue) → Except String (List Char)
  | [] => .ok []
  | [(key, v)] =>
    match encodeValue v with
    | .ok a => .ok (encodeString key ++ ':' :: a)
    | .error e => .error e
  | (key, v) :: f :: rest =>
    match encodeValue v, encodeFields (f :: rest) with
    | .ok a, .ok b => .ok (encodeString key ++ ':' :: a ++ ',' :: b)
    | .error e, _ => .error e
    | _, .error e => .error e
end

/-- Function `json.Marshal` on a `GoValue`. -/
def marshalValue (v : GoValue) : Except String Bytes :=
  match encodeValue v with
  | .ok cs => .ok (bytesOf (String.mk cs))
  | .error e => .error e

/-- White space in the sense of `unicode.IsSpace`. -/
def isUnicodeSpace (c : Char) : Bool :=
  (9 ≤ c.toNat && c.toNat ≤ 13) || c.toNat == 0x20 || c.toNat == 0x85 || c.toNat == 0xA0 ||
  c.toNat == 0x1680 || (0x2000 ≤ c.toNat && c.toNat ≤ 0x200A) || c.toNat == 0x2028 ||
  c.toNat == 0x2029 || c.toNat == 0x202F || c.toNat == 0x205F || c.toNat == 0x3000

/-- Function `strings.TrimSpace`. -/
def TrimSpace (s : String) : String :=
  String.mk ((s.data.dropWhile isUnicodeSpace).reverse.dropWhile isUnicodeSpace).reverse

/-- Function `strings.ToLower` on ASCII letters; a character outside ASCII is kept as it
is (the Go function also maps the upper-case letters outside ASCII). -/
def ToLower (s : String) : String := String.mk (s.data.map Char.toLower)

/-- The library functions as modelled above. -/
def stdlib : Runtime :=
  { ToLower := ToLower
    TrimSpace := TrimSpace
    Marshal := marshalValue
    Unmarshal := unmarshalError }

/-! ## Concrete data for evaluation -/

/-- Sample values for the constants declared outside `client.go`: the timeout and the retry
count named in its comments (ten seconds, two retries), the base URLs and the API key field
of `definitions.go`; the environment names and aliases are placeholders. -/
def sampleConstants : Constants :=
  { EnvironmentLive := ⟨"live", "https://api.tonicpow.com/v1/"⟩
    EnvironmentStaging := ⟨"staging", "https://apistaging.tonicpow.com/v1/"⟩
    EnvironmentDevelopment := ⟨"development", "http://localhost:3000/v1/"⟩
    environmentStagingName := "staging"
    environmentStagingAlias := "stage"
    environmentDevelopmentName := "development"
    environmentDevelopmentAlias := "dev"
    defaultHTTPTimeout := 10000000000
    defaultRetryCount := 2
    fieldAPIKey := "api_key" }

/-- A transport that answers every request with the given response. -/
def replyWith (resp : RestyResponse) : RestyClient :=
  { execute := fun _ _ _ => .ok resp }

/-- A transport on which every operation fails with the given error. -/
def failWith (e : String) : RestyClient :=
  { execute := fun _ _ _ => .error e }

/-- A client with the given transport and options. -/
def clientWith (t : RestyClient) (o : clientOptions) : Client :=
  { httpClient := some t, options := o }

/-- Options with an API key and the live base URL. -/
def sampleOptions : clientOptions :=
  { apiKey := "key", apiURL := "https://api.tonicpow.com/v1/", environment := "live",
    userAgent := defaultUserAgent }

/-- A `404` answer whose body is the JSON text of an API error. -/
def notFoundResponse : RestyResponse :=
  { StatusCode := 404, Body := bytesOf "\x7b\"code\":1,\"message\":\"not found\"\x7d" }

/-- A `404` answer whose body is the JSON literal `null`. -/
def nullBodyResponse : RestyResponse :=
  { StatusCode := 404, Body := bytesOf "null" }

/-- A `500` answer whose body is not JSON. -/
def serverErrorResponse : RestyResponse :=
  { StatusCode := 500, Body := bytesOf "Internal Server Error" }

/-- A `200` answer with a JSON body. -/
def okResponse : RestyResponse :=
  { StatusCode := 200, Body := bytesOf "\x7b\"id\":7\x7d" }

/-- The payload `{"email":"a@b.com"}`. -/
def emailPayload : GoValue := GoValue.object [("email", GoValue.str "a@b.com")]

/-- Whether a custom header map writes the header of canonical name `name`: some key with
at least one value has that canonical form. -/
def writesHeader (customHeaders : List (String × List String)) (name : String) : Prop :=
  ∃ entry ∈ customHeaders, entry.2 ≠ [] ∧ CanonicalMIMEHeaderKey entry.1 = name

/-- An option keeps a field of the settings: it returns the options with that field as it
found it. -/
def keeps {α : Type} (field : clientOptions → α) (opt : ClientOps) : Prop :=
  ∀ o : clientOptions, field (opt o) = field o

/-- Method `Client.Request` as a transformer of its pointer receiver: the client as the
call leaves it, and the run. `visit` is the order in which the `range` of this call visits
the custom headers of the client. The receiver is read where the body reads it (the
transport handle, the options) and handed on from statement to statement; each exit of
the body returns it as it then stands. -/
def RequestSteps (rt : Runtime) (k : Constants) (c : Client)
    (visit : List (String × List String)) (httpMethod requestEndpoint : String)
    (data : GoValue) (expectedCode : Int) : Client × Run :=
  match c.httpClient with
  | none => (c, ⟨[], .panicked⟩)
  | some httpClient =>
    match buildRequest rt k httpClient { c.options with customHeaders := visit } httpMethod
        data with
    | .error e => (c, ⟨[], .returned {} (some e)⟩)
    | .ok req =>
      match fire httpClient httpMethod (c.options.apiURL ++ requestEndpoint) req with
      | (calls, .error e) => (c, ⟨calls, .returned {} (some (GoError.transport e))⟩)
      | (calls, .ok none) => (c, ⟨calls, .panicked⟩)
      | (calls, .ok (some resp)) => (c, ⟨calls, classify rt c.options resp expectedCode⟩)

/-- Two requests are the same for the transport: same body, same trace flag and, for every
header name, the same values (an `http.Header` is a map, the order of its keys is not
part of it). -/
def sameRequest (r1 r2 : RestyRequest) : Prop :=
  r1.Body = r2.Body ∧ r1.trace = r2.trace ∧
    ∀ name : String, Header.lookup name r1.Header = Header.lookup name r2.Header

/-- The canonical names of the headers that a custom header map writes: one for each key
with at least one value. -/
def writtenNames (customHeaders : List (String × List String)) : List String :=
  (customHeaders.filter (fun entry => !entry.2.isEmpty)).map
    (fun entry => CanonicalMIMEHeaderKey entry.1)

/-- A transport whose answer is a function of one header of the request: the first
response when the header `name` holds exactly `value`, the second otherwise. -/
def answerByHeader (name value : String) (hit miss : RestyResponse) : RestyClient :=
  { execute := fun _ _ req =>
      if Header.lookup name req.Header = some [value] then .ok hit else .ok miss }

/-- The network behaviour of a default transport that refuses every connection. -/
def offline : String → String → RestyRequest → Except String RestyResponse :=
  fun _ _ _ => .error "dial tcp: connection refused"

instance (customHeaders : List (String × List String)) (name : String) :
    Decidable (writesHeader customHeaders name) := by
  unfold writesHeader
  exact inferInstance

/-! ## Properties of the header operations and of the dispatcher -/

theorem applyOps_eq_foldl (opts : List ClientOps) (o : clientOptions) :
    applyOps opts o = opts.foldl (fun acc opt => opt acc) o := by
  induction opts generalizing o with
  | nil => rfl
  | cons opt rest ih => simpa [applyOps] using ih (opt o)

theorem lookup_assign (key key1 : String) (values : List String) (h : Header) :
    Header.lookup key (Header.assign key1 values h) =
      if key = key1 then some values else Header.lookup key h := by
  induction h with
  | nil =>
    by_cases hk : key1 = key
    · simp [Header.assign, Header.lookup, hk]
    · have hk2 : ¬ key = key1 := fun h => hk h.symm
      simp [Header.assign, Header.lookup, hk, hk2]
  | cons entry rest ih =>
    obtain ⟨k, vs⟩ := entry
    by_cases hk : k = key1
    · subst hk
      by_cases hk2 : k = key
      · simp [Header.assign, Header.lookup, hk2]
      · have hk3 : ¬ key = k := fun h => hk2 h.symm
        simp [Header.assign, Header.lookup, hk2, hk3]
    · by_cases hk2 : k = key
      · subst hk2
        simp [Header.assign, Header.lookup, hk]
      · simp [Header.assign, Header.lookup, hk, hk2, ih]

theorem lookup_Set (h : Header) (key value name : String) :
    Header.lookup name (h.Set key value) =
      if name = CanonicalMIMEHeaderKey key then some [value] else Header.lookup name h := by
  simp [Header.Set, lookup_assign]

theorem lookup_Add (h : Header) (key value name : String) :
    Header.lookup name (h.Add key value) =
      if name = CanonicalMIMEHeaderKey key then
        some (((Header.lookup (CanonicalMIMEHeaderKey key) h).getD []) ++ [value])
      else Header.lookup name h := by
  simp [Header.Add, lookup_assign]

theorem setValues_body (key : String) (values : List String) (req : RestyRequest) :
    (values.foldl (fun req value => { req with Header := req.Header.Set key value }) req).Body
      = req.Body := by
  induction values generalizing req with
  | nil => rfl
  | cons v rest ih => simp [List.foldl, ih]

theorem setValues_lookup_other (key name : String) (values : List String) (req : RestyRequest)
    (h : values ≠ [] → CanonicalMIMEHeaderKey key ≠ name) :
    Header.lookup name
        (values.foldl (fun req value => { req with Header := req.Header.Set key value })
          req).Header
      = Header.lookup name req.Header := by
  induction values generalizing req with
  | nil => rfl
  | cons v rest ih =>
    have hne : CanonicalMIMEHeaderKey key ≠ name := h (by simp)
    have hne2 : ¬ name = CanonicalMIMEHeaderKey key := fun e => hne e.symm
    simp only [List.foldl]
    rw [ih _ (fun _ => hne)]
    simp [lookup_Set, hne2]

theorem setCustomHeaders_body (customHeaders : List (String × List String))
    (req : RestyRequest) : (setCustomHeaders customHeaders req).Body = req.Body := by
  unfold setCustomHeaders
  induction customHeaders generalizing req with
  | nil => rfl
  | cons entry rest ih =>
    simp only [List.foldl]
    rw [ih, setValues_body]

theorem setCustomHeaders_lookup_other (customHeaders : List (String × List String))
    (name : String) (req : RestyRequest) (h : ¬ writesHeader customHeaders name) :
    Header.lookup name (setCustomHeaders customHeaders req).Header
      = Header.lookup name req.Header := by
  unfold setCustomHeaders
  induction customHeaders generalizing req with
  | nil => rfl
  | cons entry rest ih =>
    simp only [List.foldl]
    have hrest : ¬ writesHeader rest name := by
      rintro ⟨e, he, hv, hc⟩
      exact h ⟨e, List.mem_cons_of_mem _ he, hv, hc⟩
    rw [ih _ hrest]
    apply setValues_lookup_other
    intro hv hc
    exact h ⟨entry, List.mem_cons_self _ _, hv, hc⟩

/-- The four methods for which the `switch` of `Request` has a case. -/
theorem fire_of_verb (t : RestyClient) (httpMethod url : String) (req : RestyRequest)
    (hm : httpMethod ∈ [MethodGet, MethodPost, MethodPut, MethodDelete]) :
    fire t httpMethod url req =
      ([⟨httpMethod, url, req⟩], (t.execute httpMethod url req).map some) := by
  simp only [List.mem_cons, List.mem_singleton, List.not_mem_nil, or_false] at hm
  rcases hm with h | h | h | h <;> subst h <;> simp [fire, MethodGet, MethodPost, MethodPut,
    MethodDelete]

theorem fire_of_other (t : RestyClient) (httpMethod url : String) (req : RestyRequest)
    (hm : httpMethod ∉ [MethodGet, MethodPost, MethodPut, MethodDelete]) :
    fire t httpMethod url req = ([], .ok none) := by
  simp only [List.mem_cons, List.mem_singleton, List.not_mem_nil, or_false, not_or] at hm
  obtain ⟨h1, h2, h3, h4⟩ := hm
  simp [fire, h1, h2, h3, h4]

/-- Every recorded transport call is the single call of the verb named by the method, on
the concatenated URL, with the request built by `buildRequest`. -/
theorem Request_call (rt : Runtime) (k : Constants) (t : RestyClient) (o : clientOptions)
    (httpMethod requestEndpoint : String) (data : GoValue) (expectedCode : Int)
    (call : TransportCall)
    (hcall : call ∈ (Request rt k ⟨some t, o⟩ httpMethod requestEndpoint data expectedCode).calls) :
    httpMethod ∈ [MethodGet, MethodPost, MethodPut, MethodDelete] ∧
    buildRequest rt k t o httpMethod data = .ok call.req ∧
    call.verb = httpMethod ∧ call.url = o.apiURL ++ requestEndpoint ∧
    (Request rt k ⟨some t, o⟩ httpMethod requestEndpoint data expectedCode).calls = [call] := by
  unfold Request at hcall ⊢
  simp only at hcall ⊢
  cases hb : buildRequest rt k t o httpMethod data with
  | error e => simp [hb] at hcall
  | ok req =>
    by_cases hm : httpMethod ∈ [MethodGet, MethodPost, MethodPut, MethodDelete]
    · rw [hb] at hcall
      simp only [fire_of_verb t httpMethod _ req hm] at hcall ⊢
      cases hx : t.execute httpMethod (o.apiURL ++ requestEndpoint) req with
      | error e =>
        simp only [hx, Except.map] at hcall ⊢
        simp only [List.mem_singleton] at hcall
        subst hcall
        exact ⟨hm, rfl, rfl, rfl, rfl⟩
      | ok resp =>
        simp only [hx, Except.map] at hcall ⊢
        simp only [List.mem_singleton] at hcall
        subst hcall
        exact ⟨hm, rfl, rfl, rfl, rfl⟩
    · rw [hb] at hcall
      simp [fire_of_other t httpMethod _ req hm] at hcall

/-- The run of `Request` once the request is built and the transport has answered. -/
theorem Request_of_response (rt : Runtime) (k : Constants) (t : RestyClient) (o : clientOptions)
    (httpMethod requestEndpoint : String) (data : GoValue) (expectedCode : Int)
    (req : RestyRequest) (resp : RestyResponse)
    (hm : httpMethod ∈ [MethodGet, MethodPost, MethodPut, MethodDelete])
    (hb : buildRequest rt k t o httpMethod data = .ok req)
    (hx : t.execute httpMethod (o.apiURL ++ requestEndpoint) req = .ok resp) :
    Request rt k ⟨some t, o⟩ httpMethod requestEndpoint data expectedCode =
      ⟨[⟨httpMethod, o.apiURL ++ requestEndpoint, req⟩], classify rt o resp expectedCode⟩ := by
  unfold Request
  simp only [hb, fire_of_verb t httpMethod _ req hm, hx, Except.map]

/-- The run of `Request` once the request is built and the transport has failed. -/
theorem Request_of_transport_error (rt : Runtime) (k : Constants) (t : RestyClient)
    (o : clientOptions) (httpMethod requestEndpoint : String) (data : GoValue)
    (expectedCode : Int) (req : RestyRequest) (e : String)
    (hm : httpMethod ∈ [MethodGet, MethodPost, MethodPut, MethodDelete])
    (hb : buildRequest rt k t o httpMethod data = .ok req)
    (hx : t.execute httpMethod (o.apiURL ++ requestEndpoint) req = .error e) :
    Request rt k ⟨some t, o⟩ httpMethod requestEndpoint data expectedCode =
      ⟨[⟨httpMethod, o.apiURL ++ requestEndpoint, req⟩],
        .returned {} (some (GoError.transport e))⟩ := by
  unfold Request
  simp only [hb, fire_of_verb t httpMethod _ req hm, hx, Except.map]

/-- A transport answer recorded in a run determines the outcome: it is the classification
of that answer. -/
theorem Request_outcome_of_answer (rt : Runtime) (k : Constants) (t : RestyClient)
    (o : clientOptions) (httpMethod requestEndpoint : String) (data : GoValue)
    (expectedCode : Int) (call : TransportCall) (resp : RestyResponse)
    (hcall : call ∈ (Request rt k ⟨some t, o⟩ httpMethod requestEndpoint data expectedCode).calls)
    (hx : t.execute call.verb call.url call.req = .ok resp) :
    (Request rt k ⟨some t, o⟩ httpMethod requestEndpoint data expectedCode).outcome =
      classify rt o resp expectedCode := by
  obtain ⟨hm, hb, hv, hu, _⟩ := Request_call rt k t o httpMethod requestEndpoint data expectedCode
    call hcall
  rw [hv, hu] at hx
  rw [Request_of_response rt k t o httpMethod requestEndpoint data expectedCode call.req resp
    hm hb hx]

/-! ## Construction -/

/-- C1: for every list of options, `NewClient` returns no client together with an error
exactly when the API key of the options obtained by applying the whole list in order to
the defaults is empty, and a client together with no error exactly when that key is not
empty; in particular a key set by `WithAPIKey` and overwritten later by `WithAPIKey ""`
makes the construction fail with the error `missing an API Key`. -/
theorem NewClient_fails_iff_final_key_empty (k : Constants)
    (net : String → String → RestyRequest → Except String RestyResponse)
    (opts : List ClientOps) :
    (((NewClient k net opts).1 = none ∧ (NewClient k net opts).2 ≠ none) ↔
      (opts.foldl (fun acc opt => opt acc) (defaultClientOptions k)).apiKey = "") ∧
    (((∃ c, (NewClient k net opts).1 = some c) ∧ (NewClient k net opts).2 = none) ↔
      (opts.foldl (fun acc opt => opt acc) (defaultClientOptions k)).apiKey ≠ "") ∧
    (∀ (mid : List ClientOps) (key : String),
      NewClient k net (opts ++ WithAPIKey key :: (mid ++ [WithAPIKey ""])) =
        (none, some (GoError.errorsNew "missing an API Key"))) := by
  refine ⟨?_, ?_, ?_⟩
  · unfold NewClient
    simp only [applyOps_eq_foldl]
    by_cases h : (opts.foldl (fun acc opt => opt acc) (defaultClientOptions k)).apiKey = ""
    · simp [h]
    · simp [h]
  · unfold NewClient
    simp only [applyOps_eq_foldl]
    by_cases h : (opts.foldl (fun acc opt => opt acc) (defaultClientOptions k)).apiKey = ""
    · simp [h]
    · simp [h]
  · intro mid key
    have hkey : ((opts ++ WithAPIKey key :: (mid ++ [WithAPIKey ""])).foldl
        (fun acc opt => opt acc) (defaultClientOptions k)).apiKey = "" := by
      simp only [List.foldl_append, List.foldl]
      rfl
    unfold NewClient
    simp only [applyOps_eq_foldl, hkey]
    simp

/-! ## Classification of the response -/

/-- C2: when the expected code is positive, the transport answers a request of the run
with a status different from it and the body decodes without error to the `Error` value
`e`, `Request` returns the envelope holding that status, the raw body and exactly `e`,
together with an error whose text is `e.Message`. -/
theorem Request_mismatch_returns_decoded_error (rt : Runtime) (k : Constants) (t : RestyClient)
    (o : clientOptions) (httpMethod requestEndpoint : String) (data : GoValue)
    (expectedCode : Int) (call : TransportCall) (resp : RestyResponse) (e : Error)
    (hcall : call ∈ (Request rt k ⟨some t, o⟩ httpMethod requestEndpoint data expectedCode).calls)
    (hx : t.execute call.verb call.url call.req = .ok resp)
    (hexp : expectedCode > 0) (hne : resp.StatusCode ≠ expectedCode)
    (hdec : rt.Unmarshal resp.Body {} = ⟨some e, none⟩) :
    ∃ err : GoError,
      (Request rt k ⟨some t, o⟩ httpMethod requestEndpoint data expectedCode).outcome =
        .returned
          { StatusCode := resp.StatusCode, Body := resp.Body, Error := some e,
            Tracing := if o.requestTracing then resp.TraceInfo else {} }
          (some err) ∧
      err.Error = e.Message := by
  refine ⟨GoError.fmtErrorf e.Message, ?_, rfl⟩
  rw [Request_outcome_of_answer rt k t o httpMethod requestEndpoint data expectedCode call resp
    hcall hx]
  unfold classify
  by_cases htr : o.requestTracing = true <;> simp [htr, hexp, hne, hdec]

/-- C3: when the expected code is zero or negative and the transport answers a request of
the run, whatever the status and the body, `Request` returns a nil error and an envelope
without `Error` whose status and body are those of the answer. -/
theorem Request_unchecked_returns_raw_envelope (rt : Runtime) (k : Constants) (t : RestyClient)
    (o : clientOptions) (httpMethod requestEndpoint : String) (data : GoValue)
    (expectedCode : Int) (call : TransportCall) (resp : RestyResponse)
    (hcall : call ∈ (Request rt k ⟨some t, o⟩ httpMethod requestEndpoint data expectedCode).calls)
    (hx : t.execute call.verb call.url call.req = .ok resp)
    (hexp : expectedCode ≤ 0) :
    (Request rt k ⟨some t, o⟩ httpMethod requestEndpoint data expectedCode).outcome =
      .returned
        { StatusCode := resp.StatusCode, Body := resp.Body, Error := none,
          Tracing := if o.requestTracing then resp.TraceInfo else {} }
        none := by
  rw [Request_outcome_of_answer rt k t o httpMethod requestEndpoint data expectedCode call resp
    hcall hx]
  have hnot : ¬ expectedCode > 0 := not_lt.mpr hexp
  unfold classify
  by_cases htr : o.requestTracing = true <;> simp [htr, hnot]

/-- On a status mismatch `Request` either returns an error, or the decoder has set the
`Error` pointer to nil without reporting an error and the call panics. -/
theorem Request_mismatch_returns_error_or_panics (rt : Runtime) (k : Constants)
    (t : RestyClient) (o : clientOptions) (httpMethod requestEndpoint : String)
    (data : GoValue) (expectedCode : Int) (call : TransportCall) (resp : RestyResponse)
    (hcall : call ∈ (Request rt k ⟨some t, o⟩ httpMethod requestEndpoint data expectedCode).calls)
    (hx : t.execute call.verb call.url call.req = .ok resp)
    (hexp : expectedCode > 0) (hne : resp.StatusCode ≠ expectedCode) :
    (∃ response err,
      (Request rt k ⟨some t, o⟩ httpMethod requestEndpoint data expectedCode).outcome =
        .returned response (some err)) ∨
    (rt.Unmarshal resp.Body {} = ⟨none, none⟩ ∧
      (Request rt k ⟨some t, o⟩ httpMethod requestEndpoint data expectedCode).outcome =
        .panicked) := by
  rw [Request_outcome_of_answer rt k t o httpMethod requestEndpoint data expectedCode call resp
    hcall hx]
  unfold classify
  rcases hu : rt.Unmarshal resp.Body {} with ⟨ptr, err⟩
  cases err with
  | some e => left; simp [hexp, hne, hu]
  | none =>
    cases ptr with
    | some apiError => left; simp [hexp, hne, hu]
    | none => right; simp [hexp, hne, hu]

/-- C4, evaluated on a failing input: expected code 200, answer 404 with the body `null`.
The body decodes without error and sets the `Error` pointer to nil, so reading the message
panics: `Request` does not return an error paired with an envelope. -/
theorem Request_mismatch_null_body_panics :
    Request stdlib sampleConstants (clientWith (replyWith nullBodyResponse) sampleOptions)
        MethodGet "users/1" GoValue.null 200 =
      ⟨[⟨"GET", "https://api.tonicpow.com/v1/users/1",
          { Header := [("User-Agent", ["go-tonicpow: v1"]), ("Api_key", ["key"])] }⟩],
        Outcome.panicked⟩ := by
  decide

/-- C5: when the expected code is positive, the transport answers a request of the run
with a status different from it and decoding the body fails, `Request` returns the
decoding error itself, and the envelope carries the status and the raw body of the
answer. -/
theorem Request_mismatch_returns_decoding_failure (rt : Runtime) (k : Constants)
    (t : RestyClient) (o : clientOptions) (httpMethod requestEndpoint : String)
    (data : GoValue) (expectedCode : Int) (call : TransportCall) (resp : RestyResponse)
    (failure : String)
    (hcall : call ∈ (Request rt k ⟨some t, o⟩ httpMethod requestEndpoint data expectedCode).calls)
    (hx : t.execute call.verb call.url call.req = .ok resp)
    (hexp : expectedCode > 0) (hne : resp.StatusCode ≠ expectedCode)
    (hdec : (rt.Unmarshal resp.Body {}).err = some failure) :
    ∃ response : StandardResponse,
      (Request rt k ⟨some t, o⟩ httpMethod requestEndpoint data expectedCode).outcome =
        .returned response (some (GoError.jsonUnmarshal failure)) ∧
      response.StatusCode = resp.StatusCode ∧ response.Body = resp.Body := by
  rw [Request_outcome_of_answer rt k t o httpMethod requestEndpoint data expectedCode call resp
    hcall hx]
  unfold classify
  by_cases htr : o.requestTracing = true <;> simp [htr, hexp, hne, hdec]

/-- C6: when the expected code is positive and the transport answers a request of the run
with that status, `Request` returns a nil error and an envelope without `Error`, with
status `expectedCode` and the raw body; the run is the same whatever the decoder of error
bodies is, so the body is not parsed. -/
theorem Request_expected_status_returns_raw_envelope (rt : Runtime) (k : Constants)
    (t : RestyClient) (o : clientOptions) (httpMethod requestEndpoint : String)
    (data : GoValue) (expectedCode : Int) (call : TransportCall) (resp : RestyResponse)
    (hcall : call ∈ (Request rt k ⟨some t, o⟩ httpMethod requestEndpoint data expectedCode).calls)
    (hx : t.execute call.verb call.url call.req = .ok resp)
    (_hexp : expectedCode > 0) (heq : resp.StatusCode = expectedCode) :
    (Request rt k ⟨some t, o⟩ httpMethod requestEndpoint data expectedCode).outcome =
      .returned
        { StatusCode := expectedCode, Body := resp.Body, Error := none,
          Tracing := if o.requestTracing then resp.TraceInfo else {} }
        none ∧
    ∀ decoder : Bytes → Error → UnmarshalResult,
      Request { rt with Unmarshal := decoder } k ⟨some t, o⟩ httpMethod requestEndpoint data
          expectedCode =
        Request rt k ⟨some t, o⟩ httpMethod requestEndpoint data expectedCode := by
  obtain ⟨hm, hb, hv, hu, _⟩ := Request_call rt k t o httpMethod requestEndpoint data expectedCode
    call hcall
  rw [hv, hu] at hx
  have hclass : ∀ r : Runtime, classify r o resp expectedCode =
      .returned
        { StatusCode := expectedCode, Body := resp.Body, Error := none,
          Tracing := if o.requestTracing then resp.TraceInfo else {} }
        none := by
    intro r
    unfold classify
    by_cases htr : o.requestTracing = true <;> simp [htr, heq]
  constructor
  · rw [Request_of_response rt k t o httpMethod requestEndpoint data expectedCode call.req resp
      hm hb hx]
    exact hclass rt
  · intro decoder
    have hb2 : buildRequest { rt with Unmarshal := decoder } k t o httpMethod data =
        .ok call.req := hb
    rw [Request_of_response rt k t o httpMethod requestEndpoint data expectedCode call.req resp
      hm hb hx,
      Request_of_response { rt with Unmarshal := decoder } k t o httpMethod requestEndpoint data
        expectedCode call.req resp hm hb2 hx, hclass rt, hclass _]

/-! ## Failures before a response exists -/

/-- C7: for each of the methods GET, POST, PUT and DELETE, when the transport operation
invoked by the run fails, `Request` returns that transport error and an envelope at its
zero value, whatever the expected code and the tracing flag. -/
theorem Request_transport_failure_returns_zero_envelope (rt : Runtime) (k : Constants)
    (t : RestyClient) (o : clientOptions) (httpMethod requestEndpoint : String)
    (data : GoValue) (expectedCode : Int) (call : TransportCall) (failure : String)
    (hm : httpMethod ∈ [MethodGet, MethodPost, MethodPut, MethodDelete])
    (hcall : call ∈ (Request rt k ⟨some t, o⟩ httpMethod requestEndpoint data expectedCode).calls)
    (hx : t.execute call.verb call.url call.req = .error failure) :
    (Request rt k ⟨some t, o⟩ httpMethod requestEndpoint data expectedCode).outcome =
      .returned { StatusCode := 0, Body := [], Error := none, Tracing := {} }
        (some (GoError.transport failure)) := by
  obtain ⟨_, hb, hv, hu, _⟩ := Request_call rt k t o httpMethod requestEndpoint data expectedCode
    call hcall
  rw [hv, hu] at hx
  rw [Request_of_transport_error rt k t o httpMethod requestEndpoint data expectedCode call.req
    failure hm hb hx]

/-- C8: for every method other than GET and DELETE, when the payload cannot be serialized,
`Request` returns the serialization error and a zero-valued envelope, and it invokes no
transport operation. -/
theorem Request_unserializable_payload_sends_nothing (rt : Runtime) (k : Constants)
    (t : RestyClient) (o : clientOptions) (httpMethod requestEndpoint : String)
    (data : GoValue) (expectedCode : Int) (failure : String)
    (hget : httpMethod ≠ MethodGet) (hdel : httpMethod ≠ MethodDelete)
    (hser : rt.Marshal data = .error failure) :
    Request rt k ⟨some t, o⟩ httpMethod requestEndpoint data expectedCode =
      ⟨[], .returned { StatusCode := 0, Body := [], Error := none, Tracing := {} }
        (some (GoError.jsonMarshal failure))⟩ := by
  unfold Request buildRequest setRequestBody
  simp [hget, hdel, hser]

/-! ## The request handed to the transport -/

/-- The request built for a GET or a DELETE. -/
theorem buildRequest_without_body (rt : Runtime) (k : Constants) (t : RestyClient)
    (o : clientOptions) (httpMethod : String) (data : GoValue)
    (hm : httpMethod = MethodGet ∨ httpMethod = MethodDelete) :
    buildRequest rt k t o httpMethod data =
      .ok (setCustomHeaders o.customHeaders
        { Header := (Header.Set [] "User-Agent" o.userAgent).Set k.fieldAPIKey o.apiKey
          Body := none
          trace := o.requestTracing }) := by
  have hcond : ¬ (httpMethod ≠ MethodGet ∧ httpMethod ≠ MethodDelete) := by
    rcases hm with h | h <;> simp [h]
  unfold buildRequest setRequestBody
  by_cases htr : o.requestTracing = true <;>
    simp [hcond, htr, RestyClient.R, RestyRequest.SetHeader, RestyRequest.EnableTrace]

/-- The request built for a method other than GET and DELETE with a serializable payload. -/
theorem buildRequest_with_body (rt : Runtime) (k : Constants) (t : RestyClient)
    (o : clientOptions) (httpMethod : String) (data : GoValue) (j : Bytes)
    (hget : httpMethod ≠ MethodGet) (hdel : httpMethod ≠ MethodDelete)
    (hser : rt.Marshal data = .ok j) :
    buildRequest rt k t o httpMethod data =
      .ok (setCustomHeaders o.customHeaders
        { Header :=
            ((((Header.Set [] "User-Agent" o.userAgent).Add "Content-Length" (Itoa j.length)).Set
              "Content-Type" "application/json").Set k.fieldAPIKey o.apiKey)
          Body := some j
          trace := o.requestTracing }) := by
  unfold buildRequest setRequestBody
  by_cases htr : o.requestTracing = true <;>
    simp [hget, hdel, hser, htr, RestyClient.R, RestyRequest.SetHeader, RestyRequest.SetBody,
      RestyRequest.EnableTrace]

/-- Once the request is built, a method with a case in the `switch` makes exactly one
transport call. -/
theorem Request_calls_of_build (rt : Runtime) (k : Constants) (t : RestyClient)
    (o : clientOptions) (httpMethod requestEndpoint : String) (data : GoValue)
    (expectedCode : Int) (req : RestyRequest)
    (hm : httpMethod ∈ [MethodGet, MethodPost, MethodPut, MethodDelete])
    (hb : buildRequest rt k t o httpMethod data = .ok req) :
    (Request rt k ⟨some t, o⟩ httpMethod requestEndpoint data expectedCode).calls =
      [⟨httpMethod, o.apiURL ++ requestEndpoint, req⟩] := by
  cases hx : t.execute httpMethod (o.apiURL ++ requestEndpoint) req with
  | error e =>
    rw [Request_of_transport_error rt k t o httpMethod requestEndpoint data expectedCode req e
      hm hb hx]
  | ok resp =>
    rw [Request_of_response rt k t o httpMethod requestEndpoint data expectedCode req resp
      hm hb hx]

theorem canonical_user_agent : CanonicalMIMEHeaderKey "User-Agent" = "User-Agent" := by decide

theorem canonical_content_length :
    CanonicalMIMEHeaderKey "Content-Length" = "Content-Length" := by decide

theorem canonical_content_type : CanonicalMIMEHeaderKey "Content-Type" = "Content-Type" := by
  decide

/-- C9, as stated, fails: a GET sent by a client configured with the custom header
`content-type: text/plain` carries a `Content-Type` header. -/
theorem Request_get_carries_custom_content_type :
    (Request stdlib sampleConstants
        (clientWith (replyWith okResponse)
          { sampleOptions with customHeaders := [("content-type", ["text/plain"])] })
        MethodGet "users/1" GoValue.null 200).calls.map
      (fun call => (call.verb, call.req.Body, Header.lookup "Content-Type" call.req.Header)) =
      [("GET", none, some ["text/plain"])] := by
  decide

/-- C9, amended: for every client configuration and every payload, a GET or a DELETE makes
one transport call whose request has no body; that request carries no `Content-Length`
header, and likewise no `Content-Type` header, provided that header is neither the API key
header nor written by a custom header (a key with at least one value and that canonical
name). -/
theorem Request_get_delete_sends_no_body (rt : Runtime) (k : Constants) (t : RestyClient)
    (o : clientOptions) (httpMethod requestEndpoint : String) (data : GoValue)
    (expectedCode : Int) (hm : httpMethod = MethodGet ∨ httpMethod = MethodDelete) :
    ∃ call : TransportCall,
      (Request rt k ⟨some t, o⟩ httpMethod requestEndpoint data expectedCode).calls = [call] ∧
      call.verb = httpMethod ∧
      call.req.Body = none ∧
      (CanonicalMIMEHeaderKey k.fieldAPIKey ≠ "Content-Length" →
        ¬ writesHeader o.customHeaders "Content-Length" →
        Header.lookup "Content-Length" call.req.Header = none) ∧
      (CanonicalMIMEHeaderKey k.fieldAPIKey ≠ "Content-Type" →
        ¬ writesHeader o.customHeaders "Content-Type" →
        Header.lookup "Content-Type" call.req.Header = none) := by
  have hb := buildRequest_without_body rt k t o httpMethod data hm
  have hmem : httpMethod ∈ [MethodGet, MethodPost, MethodPut, MethodDelete] := by
    rcases hm with h | h <;> simp [h]
  refine ⟨_, Request_calls_of_build rt k t o httpMethod requestEndpoint data expectedCode _ hmem
    hb, rfl, ?_, ?_, ?_⟩
  · simp [setCustomHeaders_body]
  · intro hkey hcustom
    have hkey2 : ¬ "Content-Length" = CanonicalMIMEHeaderKey k.fieldAPIKey :=
      fun e => hkey e.symm
    simp only [setCustomHeaders_lookup_other _ _ _ hcustom, lookup_Set, hkey2,
      canonical_user_agent]
    simp [Header.lookup]
  · intro hkey hcustom
    have hkey2 : ¬ "Content-Type" = CanonicalMIMEHeaderKey k.fieldAPIKey :=
      fun e => hkey e.symm
    simp only [setCustomHeaders_lookup_other _ _ _ hcustom, lookup_Set, hkey2,
      canonical_user_agent]
    simp [Header.lookup]

/-- C10, as stated, fails: the compact encoding of the payload `{"email":"a@b.com"}` has
19 bytes, so the `Content-Length` sent is `19` and not `21`; and a client configured with
the custom header `content-type: text/plain` sends that value instead of
`application/json`. -/
theorem Request_post_content_headers_differ :
    (Request stdlib sampleConstants (clientWith (replyWith okResponse) sampleOptions)
        MethodPost "users" emailPayload 200).calls.map
      (fun call => (call.req.Body, Header.lookup "Content-Length" call.req.Header)) =
      [(some (bytesOf "\x7b\"email\":\"a@b.com\"\x7d"), some ["19"])] ∧
    (Request stdlib sampleConstants
        (clientWith (replyWith okResponse)
          { sampleOptions with customHeaders := [("content-type", ["text/plain"])] })
        MethodPost "users" emailPayload 200).calls.map
      (fun call => Header.lookup "Content-Type" call.req.Header) =
      [some ["text/plain"]] := by
  decide

/-- C10, amended: for every POST or PUT call with a serializable payload, one request is
sent and its body is exactly the encoding `j` of the payload; its `Content-Length` header
is the decimal rendering of the byte length of `j` and its `Content-Type` header is
`application/json`, each provided that header is neither the API key header nor written
by a custom header (for the payload `{"email":"a@b.com"}` the length is 19). -/
theorem Request_post_put_sends_encoded_body (rt : Runtime) (k : Constants) (t : RestyClient)
    (o : clientOptions) (httpMethod requestEndpoint : String) (data : GoValue)
    (expectedCode : Int) (j : Bytes)
    (hm : httpMethod = MethodPost ∨ httpMethod = MethodPut)
    (hser : rt.Marshal data = .ok j) :
    ∃ call : TransportCall,
      (Request rt k ⟨some t, o⟩ httpMethod requestEndpoint data expectedCode).calls = [call] ∧
      call.verb = httpMethod ∧
      call.req.Body = some j ∧
      (CanonicalMIMEHeaderKey k.fieldAPIKey ≠ "Content-Length" →
        ¬ writesHeader o.customHeaders "Content-Length" →
        Header.lookup "Content-Length" call.req.Header = some [Itoa j.length]) ∧
      (CanonicalMIMEHeaderKey k.fieldAPIKey ≠ "Content-Type" →
        ¬ writesHeader o.customHeaders "Content-Type" →
        Header.lookup "Content-Type" call.req.Header = some ["application/json"]) := by
  have hget : httpMethod ≠ MethodGet := by rcases hm with h | h <;> subst h <;> decide
  have hdel : httpMethod ≠ MethodDelete := by rcases hm with h | h <;> subst h <;> decide
  have hb := buildRequest_with_body rt k t o httpMethod data j hget hdel hser
  have hmem : httpMethod ∈ [MethodGet, MethodPost, MethodPut, MethodDelete] := by
    rcases hm with h | h <;> simp [h]
  refine ⟨_, Request_calls_of_build rt k t o httpMethod requestEndpoint data expectedCode _ hmem
    hb, rfl, ?_, ?_, ?_⟩
  · simp [setCustomHeaders_body]
  · intro hkey hcustom
    have hkey2 : ¬ "Content-Length" = CanonicalMIMEHeaderKey k.fieldAPIKey :=
      fun e => hkey e.symm
    simp only [setCustomHeaders_lookup_other _ _ _ hcustom, lookup_Set, lookup_Add, hkey2,
      canonical_user_agent, canonical_content_length, canonical_content_type]
    simp [Header.lookup]
  · intro hkey hcustom
    have hkey2 : ¬ "Content-Type" = CanonicalMIMEHeaderKey k.fieldAPIKey :=
      fun e => hkey e.symm
    simp only [setCustomHeaders_lookup_other _ _ _ hcustom, lookup_Set, hkey2,
      canonical_content_type]
    simp

/-! ## Instances on concrete inputs -/

/-- Instance of C2: expected 200, answer 404 with the body
`{"code":1,"message":"not found"}`; the error text is `not found`. -/
theorem Request_mismatch_returns_decoded_error_witness :
    ∃ err : GoError,
      (Request stdlib sampleConstants (clientWith (replyWith notFoundResponse) sampleOptions)
          MethodGet "users/1" GoValue.null 200).outcome =
        .returned
          { StatusCode := 404
            Body := bytesOf "\x7b\"code\":1,\"message\":\"not found\"\x7d"
            Error := some { Code := 1, Message := "not found" }
            Tracing := {} }
          (some err) ∧
      err.Error = "not found" :=
  Request_mismatch_returns_decoded_error stdlib sampleConstants (replyWith notFoundResponse)
    sampleOptions MethodGet "users/1" GoValue.null 200
    ⟨"GET", "https://api.tonicpow.com/v1/users/1",
      { Header := [("User-Agent", ["go-tonicpow: v1"]), ("Api_key", ["key"])] }⟩
    notFoundResponse { Code := 1, Message := "not found" }
    (by decide) rfl (by decide) (by decide) (by decide)

/-- Instance of C3: expected code 0, answer 500 with a body that is not JSON. -/
theorem Request_unchecked_returns_raw_envelope_witness :
    (Request stdlib sampleConstants
        (clientWith (replyWith serverErrorResponse) { sampleOptions with requestTracing := true })
        MethodPost "users" emailPayload 0).outcome =
      .returned
        { StatusCode := 500, Body := bytesOf "Internal Server Error", Error := none,
          Tracing := {} }
        none :=
  Request_unchecked_returns_raw_envelope stdlib sampleConstants (replyWith serverErrorResponse)
    { sampleOptions with requestTracing := true } MethodPost "users" emailPayload 0
    ⟨"POST", "https://api.tonicpow.com/v1/users",
      { Header := [("User-Agent", ["go-tonicpow: v1"]), ("Content-Length", ["19"]),
          ("Content-Type", ["application/json"]), ("Api_key", ["key"])]
        Body := some (bytesOf "\x7b\"email\":\"a@b.com\"\x7d")
        trace := true }⟩
    serverErrorResponse (by decide) rfl (by decide)

/-- Instance of C5: expected 200, answer 500 with a body that is not JSON. -/
theorem Request_mismatch_returns_decoding_failure_witness :
    ∃ response : StandardResponse,
      (Request stdlib sampleConstants (clientWith (replyWith serverErrorResponse) sampleOptions)
          MethodDelete "users/1" GoValue.null 200).outcome =
        .returned response (some (GoError.jsonUnmarshal "json: syntax error")) ∧
      response.StatusCode = 500 ∧ response.Body = bytesOf "Internal Server Error" :=
  Request_mismatch_returns_decoding_failure stdlib sampleConstants
    (replyWith serverErrorResponse) sampleOptions MethodDelete "users/1" GoValue.null 200
    ⟨"DELETE", "https://api.tonicpow.com/v1/users/1",
      { Header := [("User-Agent", ["go-tonicpow: v1"]), ("Api_key", ["key"])] }⟩
    serverErrorResponse "json: syntax error"
    (by decide) rfl (by decide) (by decide) (by decide)

/-- Instance of C6: expected 200, answer 200. -/
theorem Request_expected_status_returns_raw_envelope_witness :
    (Request stdlib sampleConstants (clientWith (replyWith okResponse) sampleOptions)
        MethodGet "users/7" GoValue.null 200).outcome =
      .returned
        { StatusCode := 200, Body := bytesOf "\x7b\"id\":7\x7d", Error := none, Tracing := {} }
        none ∧
    ∀ decoder : Bytes → Error → UnmarshalResult,
      Request { stdlib with Unmarshal := decoder } sampleConstants
          (clientWith (replyWith okResponse) sampleOptions) MethodGet "users/7" GoValue.null 200 =
        Request stdlib sampleConstants (clientWith (replyWith okResponse) sampleOptions)
          MethodGet "users/7" GoValue.null 200 :=
  Request_expected_status_returns_raw_envelope stdlib sampleConstants (replyWith okResponse)
    sampleOptions MethodGet "users/7" GoValue.null 200
    ⟨"GET", "https://api.tonicpow.com/v1/users/7",
      { Header := [("User-Agent", ["go-tonicpow: v1"]), ("Api_key", ["key"])] }⟩
    okResponse (by decide) rfl (by decide) (by decide)

/-- Instance of C7: a PUT on a transport that refuses the connection, tracing on. -/
theorem Request_transport_failure_returns_zero_envelope_witness :
    (Request stdlib sampleConstants
        (clientWith (failWith "dial tcp: connection refused")
          { sampleOptions with requestTracing := true })
        MethodPut "users" emailPayload 200).outcome =
      .returned { StatusCode := 0, Body := [], Error := none, Tracing := {} }
        (some (GoError.transport "dial tcp: connection refused")) :=
  Request_transport_failure_returns_zero_envelope stdlib sampleConstants
    (failWith "dial tcp: connection refused") { sampleOptions with requestTracing := true }
    MethodPut "users" emailPayload 200
    ⟨"PUT", "https://api.tonicpow.com/v1/users",
      { Header := [("User-Agent", ["go-tonicpow: v1"]), ("Content-Length", ["19"]),
          ("Content-Type", ["application/json"]), ("Api_key", ["key"])]
        Body := some (bytesOf "\x7b\"email\":\"a@b.com\"\x7d")
        trace := true }⟩
    "dial tcp: connection refused" (by decide) (by decide) rfl

/-- Instance of C8: a POST whose payload holds a channel. -/
theorem Request_unserializable_payload_sends_nothing_witness :
    Request stdlib sampleConstants (clientWith (replyWith okResponse) sampleOptions)
        MethodPost "users" (GoValue.list [GoValue.unsupported "chan int"]) 200 =
      ⟨[], .returned { StatusCode := 0, Body := [], Error := none, Tracing := {} }
        (some (GoError.jsonMarshal "json: unsupported type: chan int"))⟩ :=
  Request_unserializable_payload_sends_nothing stdlib sampleConstants (replyWith okResponse)
    sampleOptions MethodPost "users" (GoValue.list [GoValue.unsupported "chan int"]) 200
    "json: unsupported type: chan int" (by decide) (by decide) rfl

/-- Instance of C9 as amended: a DELETE given a payload, with an unrelated custom header. -/
theorem Request_get_delete_sends_no_body_witness :
    ∃ call : TransportCall,
      (Request stdlib sampleConstants
          (clientWith (replyWith okResponse)
            { sampleOptions with customHeaders := [("x-request-id", ["a", "b"])] })
          MethodDelete "users/1" emailPayload 200).calls = [call] ∧
      call.verb = "DELETE" ∧
      call.req.Body = none ∧
      Header.lookup "Content-Length" call.req.Header = none ∧
      Header.lookup "Content-Type" call.req.Header = none := by
  obtain ⟨call, h1, h2, h3, h4, h5⟩ :=
    Request_get_delete_sends_no_body stdlib sampleConstants (replyWith okResponse)
      { sampleOptions with customHeaders := [("x-request-id", ["a", "b"])] }
      MethodDelete "users/1" emailPayload 200 (Or.inr rfl)
  exact ⟨call, h1, h2, h3, h4 (by decide) (by decide), h5 (by decide) (by decide)⟩

/-- Instance of C10 as amended: a POST of `{"email":"a@b.com"}`; the length sent is 19. -/
theorem Request_post_put_sends_encoded_body_witness :
    ∃ call : TransportCall,
      (Request stdlib sampleConstants
          (clientWith (replyWith okResponse)
            { sampleOptions with customHeaders := [("x-request-id", ["a", "b"])] })
          MethodPost "users" emailPayload 200).calls = [call] ∧
      call.verb = "POST" ∧
      call.req.Body = some (bytesOf "\x7b\"email\":\"a@b.com\"\x7d") ∧
      Header.lookup "Content-Length" call.req.Header = some ["19"] ∧
      Header.lookup "Content-Type" call.req.Header = some ["application/json"] := by
  obtain ⟨call, h1, h2, h3, h4, h5⟩ :=
    Request_post_put_sends_encoded_body stdlib sampleConstants (replyWith okResponse)
      { sampleOptions with customHeaders := [("x-request-id", ["a", "b"])] }
      MethodPost "users" emailPayload 200 (bytesOf "\x7b\"email\":\"a@b.com\"\x7d")
      (Or.inl rfl) rfl
  exact ⟨call, h1, h2, h3, h4 (by decide) (by decide), h5 (by decide) (by decide)⟩

/-! ## Custom headers -/

theorem setValues_lookup_same (key : String) (values : List String) (v : String)
    (req : RestyRequest) (h : values.getLast? = some v) :
    Header.lookup (CanonicalMIMEHeaderKey key)
        (values.foldl (fun req value => { req with Header := req.Header.Set key value })
          req).Header
      = some [v] := by
  induction values generalizing req with
  | nil => simp at h
  | cons x rest ih =>
    cases rest with
    | nil =>
      simp only [List.getLast?_singleton, Option.some.injEq] at h
      subst h
      simp [List.foldl, lookup_Set]
    | cons y more =>
      have h2 : (y :: more).getLast? = some v := by
        simpa [List.getLast?_cons_cons] using h
      exact ih _ h2

theorem setCustomHeaders_append (a b : List (String × List String)) (req : RestyRequest) :
    setCustomHeaders (a ++ b) req = setCustomHeaders b (setCustomHeaders a req) := by
  simp [setCustomHeaders, List.foldl_append]

theorem setCustomHeaders_cons (entry : String × List String)
    (rest : List (String × List String)) (req : RestyRequest) :
    setCustomHeaders (entry :: rest) req =
      setCustomHeaders rest
        (entry.2.foldl (fun req value => { req with Header := req.Header.Set entry.1 value })
          req) := rfl

/-- The last key of a canonical name that has a value decides the header: it holds the last
value of that key and nothing else. -/
theorem setCustomHeaders_last_writer (pre post : List (String × List String))
    (key : String) (values : List String) (v : String) (req : RestyRequest)
    (hv : values.getLast? = some v)
    (hpost : ¬ writesHeader post (CanonicalMIMEHeaderKey key)) :
    Header.lookup (CanonicalMIMEHeaderKey key)
        (setCustomHeaders (pre ++ (key, values) :: post) req).Header
      = some [v] := by
  rw [setCustomHeaders_append, setCustomHeaders_cons,
    setCustomHeaders_lookup_other post _ _ hpost]
  exact setValues_lookup_same key values v _ hv

/-- A header written by the custom headers holds exactly one value, the last value of one
of the keys of that canonical name. -/
theorem setCustomHeaders_writer (customHeaders : List (String × List String)) (name : String)
    (req : RestyRequest) (h : writesHeader customHeaders name) :
    ∃ entry ∈ customHeaders, ∃ v : String,
      CanonicalMIMEHeaderKey entry.1 = name ∧ entry.2.getLast? = some v ∧
      Header.lookup name (setCustomHeaders customHeaders req).Header = some [v] := by
  induction customHeaders generalizing req with
  | nil =>
    obtain ⟨e, he, _⟩ := h
    simp at he
  | cons entry rest ih =>
    by_cases hrest : writesHeader rest name
    · obtain ⟨e, he, v, hc, hl, hlook⟩ := ih _ hrest
      exact ⟨e, List.mem_cons_of_mem _ he, v, hc, hl, by rw [setCustomHeaders_cons]; exact hlook⟩
    · obtain ⟨e, he, hne, hc⟩ := h
      have hentry : e = entry := by
        rcases List.mem_cons.mp he with h1 | h1
        · exact h1
        · exact absurd ⟨e, h1, hne, hc⟩ hrest
      subst hentry
      obtain ⟨v, hv⟩ : ∃ v, e.2.getLast? = some v := by
        cases hl : e.2.getLast? with
        | none => exact absurd (List.getLast?_eq_none_iff.mp hl) hne
        | some v => exact ⟨v, rfl⟩
      refine ⟨e, List.mem_cons_self _ _, v, hc, hv, ?_⟩
      rw [setCustomHeaders_cons, setCustomHeaders_lookup_other rest _ _ hrest, ← hc]
      exact setValues_lookup_same e.1 e.2 v _ hv

/-- A key with an empty list of values contributes nothing. -/
theorem setCustomHeaders_skip_empty (pre post : List (String × List String)) (key : String)
    (req : RestyRequest) :
    setCustomHeaders (pre ++ (key, []) :: post) req = setCustomHeaders (pre ++ post) req := by
  rw [setCustomHeaders_append, setCustomHeaders_cons, setCustomHeaders_append]
  rfl

/-- Every request that is built is the overlay of the custom headers on a request whose
API key header holds the configured key and whose `User-Agent` holds the configured user
agent. -/
theorem buildRequest_ok_shape (rt : Runtime) (k : Constants) (t : RestyClient)
    (o : clientOptions) (httpMethod : String) (data : GoValue) (r : RestyRequest)
    (hb : buildRequest rt k t o httpMethod data = .ok r) :
    ∃ req0 : RestyRequest,
      r = setCustomHeaders o.customHeaders req0 ∧
      Header.lookup (CanonicalMIMEHeaderKey k.fieldAPIKey) req0.Header = some [o.apiKey] ∧
      (CanonicalMIMEHeaderKey k.fieldAPIKey ≠ "User-Agent" →
        Header.lookup "User-Agent" req0.Header = some [o.userAgent]) := by
  by_cases hm : httpMethod = MethodGet ∨ httpMethod = MethodDelete
  · rw [buildRequest_without_body rt k t o httpMethod data hm] at hb
    injection hb with hb
    refine ⟨_, hb.symm, ?_, ?_⟩
    · simp [lookup_Set]
    · intro hne
      have hne2 : ¬ "User-Agent" = CanonicalMIMEHeaderKey k.fieldAPIKey := fun e => hne e.symm
      simp [lookup_Set, hne2, canonical_user_agent]
  · have hget : httpMethod ≠ MethodGet := fun e => hm (Or.inl e)
    have hdel : httpMethod ≠ MethodDelete := fun e => hm (Or.inr e)
    cases hser : rt.Marshal data with
    | error e =>
      unfold buildRequest setRequestBody at hb
      simp [hget, hdel, hser] at hb
    | ok j =>
      rw [buildRequest_with_body rt k t o httpMethod data j hget hdel hser] at hb
      injection hb with hb
      refine ⟨_, hb.symm, ?_, ?_⟩
      · simp [lookup_Set]
      · intro hne
        have hne2 : ¬ "User-Agent" = CanonicalMIMEHeaderKey k.fieldAPIKey :=
          fun e => hne e.symm
        simp only [lookup_Set, lookup_Add, hne2, canonical_user_agent, canonical_content_length,
          canonical_content_type]
        simp

/-- C11, as stated, fails: a key configured with an empty list of values is not sent at
all, and of two keys with the same canonical name only one decides the value, here `2`,
which is not a value of the list of `x-a`. -/
theorem Request_custom_header_not_sent :
    (Request stdlib sampleConstants
        (clientWith (replyWith okResponse)
          { sampleOptions with customHeaders := [("X-Empty", [])] })
        MethodGet "users/1" GoValue.null 200).calls.map
      (fun call => Header.lookup "X-Empty" call.req.Header) = [none] ∧
    (Request stdlib sampleConstants
        (clientWith (replyWith okResponse)
          { sampleOptions with customHeaders := [("x-a", ["1"]), ("X-A", ["2"])] })
        MethodGet "users/1" GoValue.null 200).calls.map
      (fun call => call.req.Header) =
      [[("User-Agent", ["go-tonicpow: v1"]), ("Api_key", ["key"]), ("X-A", ["2"])]] := by
  decide

/-- C11, amended: for every key of the custom headers that has at least one value, every
request sent carries the header of that canonical name with exactly one value, the last
value of a configured key of that canonical name, and of that very key when no key of the
same canonical name with a value follows it in iteration order. The header holds nothing
else, so the value replaces an internally computed `User-Agent`, API key, `Content-Length`
or `Content-Type` of the same name. -/
theorem Request_custom_header_sent (rt : Runtime) (k : Constants) (t : RestyClient)
    (o : clientOptions) (httpMethod requestEndpoint : String) (data : GoValue)
    (expectedCode : Int) (call : TransportCall)
    (hcall : call ∈ (Request rt k ⟨some t, o⟩ httpMethod requestEndpoint data expectedCode).calls) :
    (∀ (key : String) (values : List String), (key, values) ∈ o.customHeaders → values ≠ [] →
      ∃ entry ∈ o.customHeaders, ∃ v : String,
        CanonicalMIMEHeaderKey entry.1 = CanonicalMIMEHeaderKey key ∧
        entry.2.getLast? = some v ∧
        Header.lookup (CanonicalMIMEHeaderKey key) call.req.Header = some [v]) ∧
    (∀ (pre post : List (String × List String)) (key : String) (values : List String)
        (v : String),
      o.customHeaders = pre ++ (key, values) :: post → values.getLast? = some v →
      ¬ writesHeader post (CanonicalMIMEHeaderKey key) →
      Header.lookup (CanonicalMIMEHeaderKey key) call.req.Header = some [v]) := by
  obtain ⟨_, hb, _, _, _⟩ := Request_call rt k t o httpMethod requestEndpoint data expectedCode
    call hcall
  obtain ⟨req0, hreq, _, _⟩ := buildRequest_ok_shape rt k t o httpMethod data call.req hb
  constructor
  · intro key values hmem hne
    rw [hreq]
    exact setCustomHeaders_writer o.customHeaders _ req0 ⟨(key, values), hmem, hne, rfl⟩
  · intro pre post key values v hsplit hv hpost
    rw [hreq, hsplit]
    exact setCustomHeaders_last_writer pre post key values v req0 hv hpost

/-- C16, as stated, fails: a POST whose payload cannot be serialized invokes no transport
operation. -/
theorem Request_post_without_transport_call :
    (Request stdlib sampleConstants (clientWith (replyWith okResponse) sampleOptions)
        MethodPost "users" (GoValue.unsupported "func()") 201).calls = [] := by
  decide

/-- C16, amended: for each of the methods GET, POST, PUT and DELETE and every endpoint,
`Request` invokes exactly one transport operation, that of the verb, on the concatenation
of the base URL and the endpoint, whenever the request is built: always for GET and DELETE,
and for POST and PUT when the payload serializes. When serializing the payload of a POST
or a PUT fails, no operation is invoked. -/
theorem Request_invokes_one_operation (rt : Runtime) (k : Constants) (t : RestyClient)
    (o : clientOptions) (httpMethod requestEndpoint : String) (data : GoValue)
    (expectedCode : Int)
    (hm : httpMethod ∈ [MethodGet, MethodPost, MethodPut, MethodDelete]) :
    ((httpMethod = MethodGet ∨ httpMethod = MethodDelete ∨ ∃ j, rt.Marshal data = .ok j) →
      ∃ req : RestyRequest,
        (Request rt k ⟨some t, o⟩ httpMethod requestEndpoint data expectedCode).calls =
          [⟨httpMethod, o.apiURL ++ requestEndpoint, req⟩]) ∧
    ((httpMethod = MethodPost ∨ httpMethod = MethodPut) →
      (∃ failure, rt.Marshal data = .error failure) →
      (Request rt k ⟨some t, o⟩ httpMethod requestEndpoint data expectedCode).calls = []) := by
  constructor
  · intro h
    by_cases hgd : httpMethod = MethodGet ∨ httpMethod = MethodDelete
    · exact ⟨_, Request_calls_of_build rt k t o httpMethod requestEndpoint data expectedCode _ hm
        (buildRequest_without_body rt k t o httpMethod data hgd)⟩
    · have hget : httpMethod ≠ MethodGet := fun e => hgd (Or.inl e)
      have hdel : httpMethod ≠ MethodDelete := fun e => hgd (Or.inr e)
      rcases h with h | h | ⟨j, hj⟩
      · exact absurd h hget
      · exact absurd h hdel
      · exact ⟨_, Request_calls_of_build rt k t o httpMethod requestEndpoint data expectedCode _
          hm (buildRequest_with_body rt k t o httpMethod data j hget hdel hj)⟩
  · intro hpp hfail
    obtain ⟨failure, hser⟩ := hfail
    have hget : httpMethod ≠ MethodGet := by rcases hpp with h | h <;> subst h <;> decide
    have hdel : httpMethod ≠ MethodDelete := by rcases hpp with h | h <;> subst h <;> decide
    unfold Request buildRequest setRequestBody
    simp [hget, hdel, hser]

/-- C17: every request sent carries a `User-Agent` header holding the configured user
agent, the value `GetUserAgent` returns, and the API key header holding the configured key,
when the custom headers write neither of the two (the API key header being a header other
than `User-Agent`). -/
theorem Request_sends_user_agent_and_api_key (rt : Runtime) (k : Constants) (t : RestyClient)
    (o : clientOptions) (httpMethod requestEndpoint : String) (data : GoValue)
    (expectedCode : Int) (call : TransportCall)
    (hcall : call ∈ (Request rt k ⟨some t, o⟩ httpMethod requestEndpoint data expectedCode).calls)
    (hfield : CanonicalMIMEHeaderKey k.fieldAPIKey ≠ "User-Agent")
    (hagent : ¬ writesHeader o.customHeaders "User-Agent")
    (hkey : ¬ writesHeader o.customHeaders (CanonicalMIMEHeaderKey k.fieldAPIKey)) :
    call.req.Header.Values "User-Agent" = [Client.GetUserAgent ⟨some t, o⟩] ∧
    call.req.Header.Values k.fieldAPIKey = [o.apiKey] := by
  obtain ⟨_, hb, _, _, _⟩ := Request_call rt k t o httpMethod requestEndpoint data expectedCode
    call hcall
  obtain ⟨req0, hreq, hk0, hu0⟩ := buildRequest_ok_shape rt k t o httpMethod data call.req hb
  constructor
  · unfold Header.Values
    rw [canonical_user_agent, hreq, setCustomHeaders_lookup_other _ _ _ hagent, hu0 hfield]
    rfl
  · unfold Header.Values
    rw [hreq, setCustomHeaders_lookup_other _ _ _ hkey, hk0]
    rfl

/-- C20, as stated, fails: with the keys `x-a` and `X-A`, both holding two values, the
request carries one value for the header `X-A`, the last value of the key visited last;
in either iteration order the last value of the other key is not sent. -/
theorem Request_custom_header_collision :
    (Request stdlib sampleConstants
        (clientWith (replyWith okResponse)
          { sampleOptions with
            customHeaders := [("x-a", ["1", "2"]), ("X-A", ["3", "4"])] })
        MethodGet "users/1" GoValue.null 200).calls.map
      (fun call => call.req.Header) =
      [[("User-Agent", ["go-tonicpow: v1"]), ("Api_key", ["key"]), ("X-A", ["4"])]] ∧
    (Request stdlib sampleConstants
        (clientWith (replyWith okResponse)
          { sampleOptions with
            customHeaders := [("X-A", ["3", "4"]), ("x-a", ["1", "2"])] })
        MethodGet "users/1" GoValue.null 200).calls.map
      (fun call => call.req.Header) =
      [[("User-Agent", ["go-tonicpow: v1"]), ("Api_key", ["key"]), ("X-A", ["2"])]] := by
  decide

/-- C20, amended: for every custom header key with two or more values that is not followed,
in iteration order, by a key of the same canonical name with a value, every request sent
carries for that header only the last value of the list of the key; and a key with an empty
list of values adds nothing: the run is the one of the configuration without that key. -/
theorem Request_custom_header_last_value (rt : Runtime) (k : Constants) (t : RestyClient)
    (o : clientOptions) (httpMethod requestEndpoint : String) (data : GoValue)
    (expectedCode : Int) :
    (∀ call ∈ (Request rt k ⟨some t, o⟩ httpMethod requestEndpoint data expectedCode).calls,
      ∀ (pre post : List (String × List String)) (key : String) (values : List String),
        o.customHeaders = pre ++ (key, values) :: post → 2 ≤ values.length →
        ¬ writesHeader post (CanonicalMIMEHeaderKey key) →
        ∃ v : String, values.getLast? = some v ∧
          Header.lookup (CanonicalMIMEHeaderKey key) call.req.Header = some [v]) ∧
    (∀ (pre post : List (String × List String)) (key : String),
      o.customHeaders = pre ++ (key, []) :: post →
      Request rt k ⟨some t, o⟩ httpMethod requestEndpoint data expectedCode =
        Request rt k ⟨some t, { o with customHeaders := pre ++ post }⟩ httpMethod
          requestEndpoint data expectedCode) := by
  constructor
  · intro call hcall pre post key values hsplit hlen hpost
    obtain ⟨_, hb, _, _, _⟩ := Request_call rt k t o httpMethod requestEndpoint data
      expectedCode call hcall
    obtain ⟨req0, hreq, _, _⟩ := buildRequest_ok_shape rt k t o httpMethod data call.req hb
    obtain ⟨v, hv⟩ : ∃ v, values.getLast? = some v := by
      cases hl : values.getLast? with
      | none =>
        have : values = [] := List.getLast?_eq_none_iff.mp hl
        subst this
        simp at hlen
      | some v => exact ⟨v, rfl⟩
    refine ⟨v, hv, ?_⟩
    rw [hreq, hsplit]
    exact setCustomHeaders_last_writer pre post key values v req0 hv hpost
  · intro pre post key hsplit
    have hbuild : buildRequest rt k t o httpMethod data =
        buildRequest rt k t { o with customHeaders := pre ++ post } httpMethod data := by
      unfold buildRequest
      simp only [hsplit, setCustomHeaders_skip_empty]
    unfold Request
    simp only [hbuild]
    cases buildRequest rt k t { o with customHeaders := pre ++ post } httpMethod data with
    | error e => rfl
    | ok req => rfl

/-! ## Composition of the options -/

theorem foldl_keeps {α : Type} (field : clientOptions → α) (l : List ClientOps)
    (h : ∀ opt ∈ l, keeps field opt) (o : clientOptions) :
    field (l.foldl (fun acc opt => opt acc) o) = field o := by
  induction l generalizing o with
  | nil => rfl
  | cons opt rest ih =>
    simp only [List.foldl_cons]
    rw [ih (fun p hp => h p (List.mem_cons_of_mem _ hp)), h opt (List.mem_cons_self _ _)]

/-- The last option that sets a field decides its value. -/
theorem foldl_last_writer {α : Type} (field : clientOptions → α) (pre post : List ClientOps)
    (opt : ClientOps) (h : ∀ p ∈ post, keeps field p) (o : clientOptions) :
    field ((pre ++ opt :: post).foldl (fun acc opt => opt acc) o) =
      field (opt (pre.foldl (fun acc opt => opt acc) o)) := by
  simp only [List.foldl_append, List.foldl_cons]
  exact foldl_keeps field post h _

/-- The result of `NewClient` when the final API key is not empty. -/
theorem NewClient_of_key (k : Constants)
    (net : String → String → RestyRequest → Except String RestyResponse)
    (opts : List ClientOps)
    (hkey : (opts.foldl (fun acc opt => opt acc) (defaultClientOptions k)).apiKey ≠ "") :
    NewClient k net opts =
      (some
        { httpClient := some (restyNew net
            (opts.foldl (fun acc opt => opt acc) (defaultClientOptions k)).httpTimeout
            (opts.foldl (fun acc opt => opt acc) (defaultClientOptions k)).retryCount)
          options := opts.foldl (fun acc opt => opt acc) (defaultClientOptions k) },
        none) := by
  unfold NewClient
  simp only [applyOps_eq_foldl]
  simp [hkey]

/-- The result of `NewClient` when the final API key is empty. -/
theorem NewClient_of_empty_key (k : Constants)
    (net : String → String → RestyRequest → Except String RestyResponse)
    (opts : List ClientOps)
    (hkey : (opts.foldl (fun acc opt => opt acc) (defaultClientOptions k)).apiKey = "") :
    NewClient k net opts = (none, some (GoError.errorsNew "missing an API Key")) := by
  unfold NewClient
  simp only [applyOps_eq_foldl]
  simp [hkey]

/-- The options other than the environment options keep the base URL and the environment
name. -/
theorem setters_keep_environment (timeout retries : Int) (userAgent appAPIKey : String)
    (headers : List (String × List String)) :
    ∀ opt ∈ [WithHTTPTimeout timeout, WithRequestTracing, WithRetryCount retries,
        WithUserAgent userAgent, WithAPIKey appAPIKey, WithCustomHeaders headers],
      keeps clientOptions.apiURL opt ∧ keeps clientOptions.environment opt := by
  intro opt hopt
  simp only [List.mem_cons, List.mem_singleton, List.not_mem_nil, or_false] at hopt
  rcases hopt with h | h | h | h | h | h <;> subst h <;> exact ⟨fun _ => rfl, fun _ => rfl⟩

/-- The options other than `WithAPIKey` keep the API key. -/
theorem setters_keep_api_key (e : environment) (timeout retries : Int) (userAgent : String)
    (headers : List (String × List String)) :
    ∀ opt ∈ [WithEnvironment e, WithHTTPTimeout timeout, WithRequestTracing,
        WithRetryCount retries, WithUserAgent userAgent, WithCustomHeaders headers],
      keeps clientOptions.apiKey opt := by
  intro opt hopt
  simp only [List.mem_cons, List.mem_singleton, List.not_mem_nil, or_false] at hopt
  rcases hopt with h | h | h | h | h | h <;> subst h <;> exact fun _ => rfl

/-- The options other than `WithCustomHeaders` keep the custom headers. -/
theorem setters_keep_custom_headers (e : environment) (timeout retries : Int)
    (userAgent appAPIKey : String) :
    ∀ opt ∈ [WithEnvironment e, WithHTTPTimeout timeout, WithRequestTracing,
        WithRetryCount retries, WithUserAgent userAgent, WithAPIKey appAPIKey],
      keeps clientOptions.customHeaders opt := by
  intro opt hopt
  simp only [List.mem_cons, List.mem_singleton, List.not_mem_nil, or_false] at hopt
  rcases hopt with h | h | h | h | h | h <;> subst h <;> exact fun _ => rfl

/-- C12: with `t` the trimmed and lower-cased string, `WithEnvironmentString` is the option
of the staging environment when `t` is the staging name or alias, of the development
environment when `t` is the development name or alias, and of the live environment for
every other string; a client built with it and a non-empty key has the base URL and the
name of that environment. The names of the two non-live environments are taken distinct. -/
theorem WithEnvironmentString_selects_environment (rt : Runtime) (k : Constants)
    (net : String → String → RestyRequest → Except String RestyResponse) (s key : String)
    (hnames : k.environmentDevelopmentName ≠ k.environmentStagingName ∧
      k.environmentDevelopmentName ≠ k.environmentStagingAlias ∧
      k.environmentDevelopmentAlias ≠ k.environmentStagingName ∧
      k.environmentDevelopmentAlias ≠ k.environmentStagingAlias)
    (hkey : key ≠ "") :
    ∀ e : environment,
      ((rt.ToLower (rt.TrimSpace s) = k.environmentStagingName ∨
          rt.ToLower (rt.TrimSpace s) = k.environmentStagingAlias) ∧
          e = k.EnvironmentStaging) ∨
      ((rt.ToLower (rt.TrimSpace s) = k.environmentDevelopmentName ∨
          rt.ToLower (rt.TrimSpace s) = k.environmentDevelopmentAlias) ∧
          e = k.EnvironmentDevelopment) ∨
      ((rt.ToLower (rt.TrimSpace s) ≠ k.environmentStagingName ∧
          rt.ToLower (rt.TrimSpace s) ≠ k.environmentStagingAlias ∧
          rt.ToLower (rt.TrimSpace s) ≠ k.environmentDevelopmentName ∧
          rt.ToLower (rt.TrimSpace s) ≠ k.environmentDevelopmentAlias) ∧
          e = k.EnvironmentLive) →
      WithEnvironmentString rt k s = WithEnvironment e ∧
      ∃ c : Client,
        NewClient k net [WithAPIKey key, WithEnvironmentString rt k s] = (some c, none) ∧
        c.options.apiURL = e.apiURL ∧ c.options.environment = e.name ∧
        c.GetEnvironment = e.name := by
  intro e hcase
  obtain ⟨h1, h2, h3, h4⟩ := hnames
  have hsel : WithEnvironmentString rt k s = WithEnvironment e := by
    unfold WithEnvironmentString
    rcases hcase with ⟨ht, he⟩ | ⟨ht, he⟩ | ⟨⟨n1, n2, n3, n4⟩, he⟩
    · subst he
      simp [ht]
    · subst he
      have hns : ¬ (rt.ToLower (rt.TrimSpace s) = k.environmentStagingName ∨
          rt.ToLower (rt.TrimSpace s) = k.environmentStagingAlias) := by
        rcases ht with ht | ht <;> rw [ht] <;> simp [h1, h2, h3, h4]
      simp only [hns, ht, if_true, if_false]
    · subst he
      simp [n1, n2, n3, n4]
  refine ⟨hsel, ?_⟩
  have hfinal : [WithAPIKey key, WithEnvironmentString rt k s].foldl (fun acc opt => opt acc)
      (defaultClientOptions k) =
      { defaultClientOptions k with apiKey := key, apiURL := e.apiURL, environment := e.name } := by
    rw [hsel]
    rfl
  have hk : ([WithAPIKey key, WithEnvironmentString rt k s].foldl (fun acc opt => opt acc)
      (defaultClientOptions k)).apiKey ≠ "" := by
    rw [hfinal]
    exact hkey
  refine ⟨_, NewClient_of_key k net _ hk, ?_, ?_, ?_⟩
  · simp only [hfinal]
  · simp only [hfinal]
  · simp only [Client.GetEnvironment, hfinal]

/-- C13, as stated, fails: the list `WithAPIKey "key", WithAPIKey ""` contains
`WithAPIKey "key"` with a non-empty key and no environment option, and `NewClient` fails
on it. -/
theorem NewClient_overwritten_key_fails :
    NewClient sampleConstants offline [WithAPIKey "key", WithAPIKey ""] =
      (none, some (GoError.errorsNew "missing an API Key")) := by
  rfl

/-- C13, amended: for every non-empty key and every list of options made of `WithAPIKey`
of that key, options before and after it that keep the base URL and the environment name,
and no option after it that changes the API key, `NewClient` succeeds and the client has
the base URL and the name of the live environment; with `WithAPIKey` alone the other
settings are the defaults, the transport is configured with the default timeout and retry
count, and `GetUserAgent` returns the default user agent. -/
theorem NewClient_defaults_to_live_environment (k : Constants)
    (net : String → String → RestyRequest → Except String RestyResponse)
    (pre post : List ClientOps) (key : String) (hkey : key ≠ "")
    (henv : ∀ opt ∈ pre ++ post,
      keeps clientOptions.apiURL opt ∧ keeps clientOptions.environment opt)
    (hlast : ∀ opt ∈ post, keeps clientOptions.apiKey opt) :
    (∃ c : Client,
      NewClient k net (pre ++ WithAPIKey key :: post) = (some c, none) ∧
      c.options.apiKey = key ∧
      c.options.apiURL = k.EnvironmentLive.apiURL ∧
      c.options.environment = k.EnvironmentLive.name) ∧
    (∃ c : Client,
      NewClient k net [WithAPIKey key] = (some c, none) ∧
      c.options =
        { apiKey := key
          apiURL := k.EnvironmentLive.apiURL
          environment := k.EnvironmentLive.name
          customHeaders := []
          httpTimeout := k.defaultHTTPTimeout
          requestTracing := false
          retryCount := k.defaultRetryCount
          userAgent := defaultUserAgent } ∧
      c.GetUserAgent = defaultUserAgent ∧
      c.httpClient.map RestyClient.timeout = some k.defaultHTTPTimeout ∧
      c.httpClient.map RestyClient.retryCount = some k.defaultRetryCount) := by
  have henv2 : ∀ opt ∈ pre ++ WithAPIKey key :: post,
      keeps clientOptions.apiURL opt ∧ keeps clientOptions.environment opt := by
    intro opt hopt
    rcases List.mem_append.mp hopt with h | h
    · exact henv opt (List.mem_append.mpr (Or.inl h))
    · rcases List.mem_cons.mp h with h | h
      · subst h
        exact ⟨fun _ => rfl, fun _ => rfl⟩
      · exact henv opt (List.mem_append.mpr (Or.inr h))
  have hk : ((pre ++ WithAPIKey key :: post).foldl (fun acc opt => opt acc)
      (defaultClientOptions k)).apiKey = key :=
    foldl_last_writer clientOptions.apiKey pre post (WithAPIKey key) hlast _
  constructor
  · refine ⟨_, NewClient_of_key k net _ (by rw [hk]; exact hkey), hk, ?_, ?_⟩
    · exact foldl_keeps clientOptions.apiURL _ (fun opt h => (henv2 opt h).1) _
    · exact foldl_keeps clientOptions.environment _ (fun opt h => (henv2 opt h).2) _
  · exact ⟨_, NewClient_of_key k net [WithAPIKey key] hkey, rfl, rfl, rfl, rfl⟩

/-- C14: the settings of a client built by `NewClient` are the left-to-right fold of the
options over the defaults, and a client is built as soon as the folded key is not empty;
so every field has the value given by the last option of the list that sets it, and the
default value when no option sets it; the custom headers are exactly the map given to the
last `WithCustomHeaders`. -/
theorem NewClient_settings_are_fold (k : Constants)
    (net : String → String → RestyRequest → Except String RestyResponse)
    (opts : List ClientOps) :
    (∀ c : Client, (NewClient k net opts).1 = some c →
      c.options = opts.foldl (fun acc opt => opt acc) (defaultClientOptions k)) ∧
    ((opts.foldl (fun acc opt => opt acc) (defaultClientOptions k)).apiKey ≠ "" →
      ∃ c : Client, (NewClient k net opts).1 = some c) ∧
    (∀ (α : Type) (field : clientOptions → α) (pre post : List ClientOps) (opt : ClientOps),
      opts = pre ++ opt :: post → (∀ p ∈ post, keeps field p) →
      field (opts.foldl (fun acc opt => opt acc) (defaultClientOptions k)) =
        field (opt (pre.foldl (fun acc opt => opt acc) (defaultClientOptions k)))) ∧
    (∀ (α : Type) (field : clientOptions → α), (∀ p ∈ opts, keeps field p) →
      field (opts.foldl (fun acc opt => opt acc) (defaultClientOptions k)) =
        field (defaultClientOptions k)) ∧
    (∀ (pre post : List ClientOps) (headers : List (String × List String)),
      opts = pre ++ WithCustomHeaders headers :: post →
      (∀ p ∈ post, keeps clientOptions.customHeaders p) →
      (opts.foldl (fun acc opt => opt acc) (defaultClientOptions k)).customHeaders =
        headers) := by
  refine ⟨?_, ?_, ?_, ?_, ?_⟩
  · intro c hc
    by_cases hkey : (opts.foldl (fun acc opt => opt acc) (defaultClientOptions k)).apiKey = ""
    · rw [NewClient_of_empty_key k net opts hkey] at hc
      simp at hc
    · rw [NewClient_of_key k net opts hkey] at hc
      simp only [Option.some.injEq] at hc
      rw [← hc]
  · intro hkey
    exact ⟨_, by rw [NewClient_of_key k net opts hkey]⟩
  · intro α field pre post opt hsplit hpost
    rw [hsplit]
    exact foldl_last_writer field pre post opt hpost _
  · intro α field hall
    exact foldl_keeps field opts hall _
  · intro pre post headers hsplit hpost
    rw [hsplit]
    exact foldl_last_writer clientOptions.customHeaders pre post (WithCustomHeaders headers)
      hpost _

/-- C15: whatever the timeout and the retry count, zero and negative values included, a
list of options whose final API key is not empty yields a client, and the default
transport built for it is configured with exactly the final timeout and the final retry
count; in particular the values given last by `WithHTTPTimeout` and `WithRetryCount`
reach the transport as they are. -/
theorem NewClient_configures_default_transport (k : Constants)
    (net : String → String → RestyRequest → Except String RestyResponse)
    (opts : List ClientOps)
    (hkey : (opts.foldl (fun acc opt => opt acc) (defaultClientOptions k)).apiKey ≠ "") :
    (∃ (c : Client) (t : RestyClient),
      NewClient k net opts = (some c, none) ∧ c.httpClient = some t ∧
      t.timeout = c.options.httpTimeout ∧ t.retryCount = c.options.retryCount ∧
      c.options = opts.foldl (fun acc opt => opt acc) (defaultClientOptions k)) ∧
    (∀ timeout retries : Int,
      ∃ (c : Client) (t : RestyClient),
        NewClient k net (opts ++ [WithHTTPTimeout timeout, WithRetryCount retries]) =
          (some c, none) ∧
        c.httpClient = some t ∧ t.timeout = timeout ∧ t.retryCount = retries) := by
  constructor
  · exact ⟨_, _, NewClient_of_key k net opts hkey, rfl, rfl, rfl, rfl⟩
  · intro timeout retries
    have hk2 : ((opts ++ [WithHTTPTimeout timeout, WithRetryCount retries]).foldl
        (fun acc opt => opt acc) (defaultClientOptions k)).apiKey ≠ "" := by
      simp only [List.foldl_append, List.foldl_cons, List.foldl_nil]
      exact hkey
    refine ⟨_, _, NewClient_of_key k net _ hk2, rfl, ?_, ?_⟩
    · simp only [restyNew, List.foldl_append, List.foldl_cons, List.foldl_nil]
      rfl
    · simp only [restyNew, List.foldl_append, List.foldl_cons, List.foldl_nil]
      rfl

/-- C18: `WithCustomHTTPClient` returns the receiver with its transport handle replaced by
the supplied one; the settings are unchanged, and the supplied transport keeps its own
timeout and retry count, whatever the settings hold. -/
theorem WithCustomHTTPClient_replaces_transport (c : Client) (client : Option RestyClient) :
    c.WithCustomHTTPClient client = { c with httpClient := client } ∧
    (c.WithCustomHTTPClient client).httpClient = client ∧
    (c.WithCustomHTTPClient client).options = c.options ∧
    (∀ t : RestyClient, client = some t →
      ∃ t1 : RestyClient, (c.WithCustomHTTPClient client).httpClient = some t1 ∧
        t1.timeout = t.timeout ∧ t1.retryCount = t.retryCount ∧ t1.execute = t.execute) := by
  refine ⟨rfl, rfl, rfl, ?_⟩
  intro t ht
  exact ⟨t, ht, rfl, rfl, rfl⟩

/-! ## Further instances on concrete inputs -/

/-- Instance of C11 as amended: the custom header `user-agent` replaces the `User-Agent`
computed by the dispatcher. -/
theorem Request_custom_header_sent_witness :
    CanonicalMIMEHeaderKey "user-agent" = "User-Agent" ∧
    Header.lookup (CanonicalMIMEHeaderKey "user-agent")
        (TransportCall.mk "GET" "https://api.tonicpow.com/v1/users/1"
          { Header := [("User-Agent", ["custom/1.0"]), ("Api_key", ["key"]),
              ("X-Trace", ["b"])] }).req.Header
      = some ["custom/1.0"] :=
  ⟨by decide,
    (Request_custom_header_sent stdlib sampleConstants (replyWith okResponse)
      { sampleOptions with
        customHeaders := [("user-agent", ["custom/1.0"]), ("X-Trace", ["a", "b"])] }
      MethodGet "users/1" GoValue.null 200
      (TransportCall.mk "GET" "https://api.tonicpow.com/v1/users/1"
        { Header := [("User-Agent", ["custom/1.0"]), ("Api_key", ["key"]),
            ("X-Trace", ["b"])] })
      (by decide)).2 [] [("X-Trace", ["a", "b"])] "user-agent" ["custom/1.0"] "custom/1.0"
      rfl rfl (by decide)⟩

/-- Instance of C12: a padded, mixed-case staging name selects staging, the empty string
selects live. -/
theorem WithEnvironmentString_selects_environment_witness :
    (WithEnvironmentString stdlib sampleConstants "  Staging\n" =
        WithEnvironment sampleConstants.EnvironmentStaging ∧
      ∃ c : Client,
        NewClient sampleConstants offline
            [WithAPIKey "key", WithEnvironmentString stdlib sampleConstants "  Staging\n"] =
          (some c, none) ∧
        c.options.apiURL = sampleConstants.EnvironmentStaging.apiURL ∧
        c.options.environment = sampleConstants.EnvironmentStaging.name ∧
        c.GetEnvironment = sampleConstants.EnvironmentStaging.name) ∧
    (WithEnvironmentString stdlib sampleConstants "" =
        WithEnvironment sampleConstants.EnvironmentLive ∧
      ∃ c : Client,
        NewClient sampleConstants offline
            [WithAPIKey "key", WithEnvironmentString stdlib sampleConstants ""] =
          (some c, none) ∧
        c.options.apiURL = sampleConstants.EnvironmentLive.apiURL ∧
        c.options.environment = sampleConstants.EnvironmentLive.name ∧
        c.GetEnvironment = sampleConstants.EnvironmentLive.name) :=
  ⟨WithEnvironmentString_selects_environment stdlib sampleConstants offline "  Staging\n" "key"
      (by decide) (by decide) sampleConstants.EnvironmentStaging (Or.inl ⟨by decide, rfl⟩),
    WithEnvironmentString_selects_environment stdlib sampleConstants offline "" "key"
      (by decide) (by decide) sampleConstants.EnvironmentLive
      (Or.inr (Or.inr ⟨by decide, rfl⟩))⟩

/-- Instance of C13 as amended: an earlier key is overwritten, other settings are touched,
no environment option is given. -/
theorem NewClient_defaults_to_live_environment_witness :
    (∃ c : Client,
      NewClient sampleConstants offline
          ([WithUserAgent "app/2", WithAPIKey "old"] ++ WithAPIKey "key" :: [WithRetryCount 0]) =
        (some c, none) ∧
      c.options.apiKey = "key" ∧
      c.options.apiURL = sampleConstants.EnvironmentLive.apiURL ∧
      c.options.environment = sampleConstants.EnvironmentLive.name) ∧
    (∃ c : Client,
      NewClient sampleConstants offline [WithAPIKey "key"] = (some c, none) ∧
      c.options =
        { apiKey := "key"
          apiURL := sampleConstants.EnvironmentLive.apiURL
          environment := sampleConstants.EnvironmentLive.name
          customHeaders := []
          httpTimeout := sampleConstants.defaultHTTPTimeout
          requestTracing := false
          retryCount := sampleConstants.defaultRetryCount
          userAgent := defaultUserAgent } ∧
      c.GetUserAgent = defaultUserAgent ∧
      c.httpClient.map RestyClient.timeout = some sampleConstants.defaultHTTPTimeout ∧
      c.httpClient.map RestyClient.retryCount = some sampleConstants.defaultRetryCount) :=
  NewClient_defaults_to_live_environment sampleConstants offline
    [WithUserAgent "app/2", WithAPIKey "old"] [WithRetryCount 0] "key" (by decide)
    (by
      intro opt hopt
      simp only [List.cons_append, List.nil_append, List.mem_cons, List.mem_singleton,
        List.not_mem_nil, or_false] at hopt
      rcases hopt with h | h | h <;> subst h <;> exact ⟨fun _ => rfl, fun _ => rfl⟩)
    (by
      intro opt hopt
      simp only [List.mem_singleton] at hopt
      subst hopt
      exact fun _ => rfl)

/-- Instance of C14: of two `WithCustomHeaders` the last one gives the whole map. -/
theorem NewClient_settings_are_fold_witness :
    ([WithCustomHeaders [("A", ["1"])], WithAPIKey "key", WithCustomHeaders [("B", ["2"])],
        WithRetryCount 5].foldl (fun acc opt => opt acc)
      (defaultClientOptions sampleConstants)).customHeaders = [("B", ["2"])] :=
  (NewClient_settings_are_fold sampleConstants offline
    [WithCustomHeaders [("A", ["1"])], WithAPIKey "key", WithCustomHeaders [("B", ["2"])],
      WithRetryCount 5]).2.2.2.2
    [WithCustomHeaders [("A", ["1"])], WithAPIKey "key"] [WithRetryCount 5] [("B", ["2"])] rfl
    (by
      intro opt hopt
      simp only [List.mem_singleton] at hopt
      subst hopt
      exact fun _ => rfl)

/-- Instance of C15: a zero timeout and a negative retry count reach the transport. -/
theorem NewClient_configures_default_transport_witness :
    ∃ (c : Client) (t : RestyClient),
      NewClient sampleConstants offline
          ([WithAPIKey "key"] ++ [WithHTTPTimeout 0, WithRetryCount (-3)]) = (some c, none) ∧
      c.httpClient = some t ∧ t.timeout = 0 ∧ t.retryCount = -3 :=
  (NewClient_configures_default_transport sampleConstants offline [WithAPIKey "key"]
    (by decide)).2 0 (-3)

/-- Instance of C16 as amended: the endpoint is appended as it is, here giving a double
slash. -/
theorem Request_invokes_one_operation_witness :
    ∃ req : RestyRequest,
      (Request stdlib sampleConstants (clientWith (replyWith okResponse) sampleOptions)
          MethodDelete "/users/1" GoValue.null 200).calls =
        [⟨MethodDelete, sampleOptions.apiURL ++ "/users/1", req⟩] :=
  (Request_invokes_one_operation stdlib sampleConstants (replyWith okResponse) sampleOptions
    MethodDelete "/users/1" GoValue.null 200 (by decide)).1 (Or.inr (Or.inl rfl))

/-- Instance of C17: a POST with an unrelated custom header. -/
theorem Request_sends_user_agent_and_api_key_witness :
    (TransportCall.mk "POST" "https://api.tonicpow.com/v1/users"
        { Header := [("User-Agent", ["go-tonicpow: v1"]), ("Content-Length", ["19"]),
            ("Content-Type", ["application/json"]), ("Api_key", ["key"]), ("X-Trace", ["b"])]
          Body := some (bytesOf "\x7b\"email\":\"a@b.com\"\x7d") }).req.Header.Values
        "User-Agent" =
      [Client.GetUserAgent
        ⟨some (replyWith okResponse),
          { sampleOptions with customHeaders := [("X-Trace", ["a", "b"])] }⟩] ∧
    (TransportCall.mk "POST" "https://api.tonicpow.com/v1/users"
        { Header := [("User-Agent", ["go-tonicpow: v1"]), ("Content-Length", ["19"]),
            ("Content-Type", ["application/json"]), ("Api_key", ["key"]), ("X-Trace", ["b"])]
          Body := some (bytesOf "\x7b\"email\":\"a@b.com\"\x7d") }).req.Header.Values
        sampleConstants.fieldAPIKey =
      [({ sampleOptions with customHeaders := [("X-Trace", ["a", "b"])] } :
        clientOptions).apiKey] :=
  Request_sends_user_agent_and_api_key stdlib sampleConstants (replyWith okResponse)
    { sampleOptions with customHeaders := [("X-Trace", ["a", "b"])] }
    MethodPost "users" emailPayload 201
    (TransportCall.mk "POST" "https://api.tonicpow.com/v1/users"
      { Header := [("User-Agent", ["go-tonicpow: v1"]), ("Content-Length", ["19"]),
          ("Content-Type", ["application/json"]), ("Api_key", ["key"]), ("X-Trace", ["b"])]
        Body := some (bytesOf "\x7b\"email\":\"a@b.com\"\x7d") })
    (by decide) (by decide) (by decide) (by decide)

/-- Instance of C20 as amended: of the two values of `X-Trace` only the last is sent. -/
theorem Request_custom_header_last_value_witness :
    ∃ v : String, ["a", "b"].getLast? = some v ∧
      Header.lookup (CanonicalMIMEHeaderKey "X-Trace")
          (TransportCall.mk "GET" "https://api.tonicpow.com/v1/users/1"
            { Header := [("User-Agent", ["go-tonicpow: v1"]), ("Api_key", ["key"]),
                ("X-Trace", ["b"])] }).req.Header
        = some [v] :=
  (Request_custom_header_last_value stdlib sampleConstants (replyWith okResponse)
    { sampleOptions with customHeaders := [("X-Trace", ["a", "b"]), ("X-Empty", [])] }
    MethodGet "users/1" GoValue.null 200).1
    (TransportCall.mk "GET" "https://api.tonicpow.com/v1/users/1"
      { Header := [("User-Agent", ["go-tonicpow: v1"]), ("Api_key", ["key"]),
          ("X-Trace", ["b"])] })
    (by decide) [] [("X-Empty", [])] "X-Trace" ["a", "b"] rfl (by decide) (by decide)

/-! ## Methods without a case in the `switch` -/

/-- For a method other than GET, POST, PUT and DELETE whose payload serializes, no
transport operation is invoked and the call panics: `resp` is still nil when it is read. -/
theorem Request_unknown_method_panics (rt : Runtime) (k : Constants) (t : RestyClient)
    (o : clientOptions) (httpMethod requestEndpoint : String) (data : GoValue)
    (expectedCode : Int) (j : Bytes)
    (hm : httpMethod ∉ [MethodGet, MethodPost, MethodPut, MethodDelete])
    (hser : rt.Marshal data = .ok j) :
    Request rt k ⟨some t, o⟩ httpMethod requestEndpoint data expectedCode =
      ⟨[], .panicked⟩ := by
  have hget : httpMethod ≠ MethodGet := fun e => hm (by simp [e])
  have hdel : httpMethod ≠ MethodDelete := fun e => hm (by simp [e])
  unfold Request
  simp only [buildRequest_with_body rt k t o httpMethod data j hget hdel hser,
    fire_of_other t httpMethod _ _ hm]

/-- C21, evaluated on a failing input: a PATCH with the payload `{"email":"a@b.com"}`.
The payload is serialized and attached as the body, no case of the `switch` matches, so
no transport operation is invoked, and `Request` reads the status code of the absent
response: the call panics. -/
theorem Request_patch_reads_absent_response :
    buildRequest stdlib sampleConstants (replyWith okResponse) sampleOptions "PATCH"
        emailPayload =
      .ok
        { Header := [("User-Agent", ["go-tonicpow: v1"]), ("Content-Length", ["19"]),
            ("Content-Type", ["application/json"]), ("Api_key", ["key"])]
          Body := some (bytesOf "\x7b\"email\":\"a@b.com\"\x7d") } ∧
    Request stdlib sampleConstants (clientWith (replyWith okResponse) sampleOptions)
        "PATCH" "users/1" emailPayload 200 =
      ⟨[], Outcome.panicked⟩ :=
  ⟨rfl, by decide⟩

/-! ## Two calls on one client -/

theorem setValues_trace (key : String) (values : List String) (req : RestyRequest) :
    (values.foldl (fun req value => { req with Header := req.Header.Set key value }) req).trace
      = req.trace := by
  induction values generalizing req with
  | nil => rfl
  | cons v rest ih => simp [List.foldl, ih]

theorem setCustomHeaders_trace (customHeaders : List (String × List String))
    (req : RestyRequest) : (setCustomHeaders customHeaders req).trace = req.trace := by
  unfold setCustomHeaders
  induction customHeaders generalizing req with
  | nil => rfl
  | cons entry rest ih =>
    simp only [List.foldl]
    rw [ih, setValues_trace]

/-- Whether a header is written does not depend on the visiting order. -/
theorem writesHeader_perm (visit1 visit2 : List (String × List String)) (name : String)
    (hperm : visit1.Perm visit2) (h : writesHeader visit1 name) : writesHeader visit2 name := by
  obtain ⟨entry, hmem, hne, hc⟩ := h
  exact ⟨entry, hperm.mem_iff.mp hmem, hne, hc⟩

/-- An entry with a value contributes its canonical name to `writtenNames`. -/
theorem mem_filter_of_last (customHeaders : List (String × List String))
    (entry : String × List String) (v : String) (hmem : entry ∈ customHeaders)
    (hv : entry.2.getLast? = some v) :
    entry ∈ customHeaders.filter (fun entry => !entry.2.isEmpty) := by
  refine List.mem_filter.mpr ⟨hmem, ?_⟩
  cases hl : entry.2 with
  | nil => rw [hl] at hv; simp at hv
  | cons x rest => simp

/-- When the written canonical names are pairwise distinct, the headers left by the custom
header loop do not depend on the order in which the map is visited. -/
theorem setCustomHeaders_lookup_perm (visit1 visit2 : List (String × List String))
    (hperm : visit1.Perm visit2) (hdistinct : (writtenNames visit1).Nodup)
    (name : String) (req : RestyRequest) :
    Header.lookup name (setCustomHeaders visit1 req).Header =
      Header.lookup name (setCustomHeaders visit2 req).Header := by
  by_cases hw : writesHeader visit1 name
  · have hw2 := writesHeader_perm visit1 visit2 name hperm hw
    obtain ⟨e1, hm1, v1, hc1, hl1, hlook1⟩ := setCustomHeaders_writer visit1 name req hw
    obtain ⟨e2, hm2, v2, hc2, hl2, hlook2⟩ := setCustomHeaders_writer visit2 name req hw2
    have hf1 := mem_filter_of_last visit1 e1 v1 hm1 hl1
    have hf2 := mem_filter_of_last visit1 e2 v2 (hperm.mem_iff.mpr hm2) hl2
    have heq : e1 = e2 :=
      List.inj_on_of_nodup_map hdistinct hf1 hf2 (by rw [hc1, hc2])
    subst heq
    rw [hl1] at hl2
    injection hl2 with hv
    rw [hlook1, hlook2, hv]
  · have hw2 : ¬ writesHeader visit2 name :=
      fun h => hw (writesHeader_perm visit2 visit1 name hperm.symm h)
    rw [setCustomHeaders_lookup_other visit1 name req hw,
      setCustomHeaders_lookup_other visit2 name req hw2]

/-- The receiver comes out of a call of `Request` as it went in: at each exit of the body
the client handed on is the one received. -/
theorem RequestSteps_receiver (rt : Runtime) (k : Constants) (c : Client)
    (visit : List (String × List String)) (httpMethod requestEndpoint : String)
    (data : GoValue) (expectedCode : Int) :
    (RequestSteps rt k c visit httpMethod requestEndpoint data expectedCode).1 = c := by
  unfold RequestSteps
  split
  · rfl
  · split
    · rfl
    · split <;> rfl

/-- The run of a call whose `range` visits the custom headers in the order `visit` is the
run of `Request` on the options listing the headers in that order. -/
theorem RequestSteps_run (rt : Runtime) (k : Constants) (t : RestyClient) (o : clientOptions)
    (visit : List (String × List String)) (httpMethod requestEndpoint : String)
    (data : GoValue) (expectedCode : Int) :
    (RequestSteps rt k ⟨some t, o⟩ visit httpMethod requestEndpoint data expectedCode).2 =
      Request rt k ⟨some t, { o with customHeaders := visit }⟩ httpMethod requestEndpoint data
        expectedCode := by
  unfold RequestSteps Request
  simp only
  split
  · rfl
  · split <;> rfl

/-- C19, as stated, fails: the custom header map with the keys `x-a` and `X-A` is visited
in a fresh order at every call. Against a transport whose answer is a function of the
request, a GET that visits `x-a` first sends `X-A: 2` and gets the status 404, and a second
GET on the client left by the first, visiting `X-A` first, sends `X-A: 1` and gets the
status 200 with another body. -/
theorem Request_get_depends_on_iteration_order :
    List.Perm [("X-A", ["2"]), ("x-a", ["1"])] [("x-a", ["1"]), ("X-A", ["2"])] ∧
    (RequestSteps stdlib sampleConstants
        (clientWith (answerByHeader "X-A" "1" okResponse notFoundResponse)
          { sampleOptions with customHeaders := [("x-a", ["1"]), ("X-A", ["2"])] })
        [("x-a", ["1"]), ("X-A", ["2"])] MethodGet "users/7" GoValue.null 0).2.outcome =
      .returned { StatusCode := 404, Body := notFoundResponse.Body } none ∧
    (RequestSteps stdlib sampleConstants
        (RequestSteps stdlib sampleConstants
          (clientWith (answerByHeader "X-A" "1" okResponse notFoundResponse)
            { sampleOptions with customHeaders := [("x-a", ["1"]), ("X-A", ["2"])] })
          [("x-a", ["1"]), ("X-A", ["2"])] MethodGet "users/7" GoValue.null 0).1
        [("X-A", ["2"]), ("x-a", ["1"])] MethodGet "users/7" GoValue.null 0).2.outcome =
      .returned { StatusCode := 200, Body := okResponse.Body } none :=
  ⟨List.Perm.swap _ _ _, by decide, by decide⟩

/-- C19, amended: when no two custom header keys with a value share a canonical name, a
GET leaves the client as it was, and a second GET on the same endpoint with the same
expected code, whatever the order in which each call visits the custom headers and
whatever the payload arguments, against a transport that answers the same request with
the same response, sends the same request and has the same outcome: envelopes with the
same status code and body, and the same error. -/
theorem Request_get_repeatable_for_distinct_headers (rt : Runtime) (k : Constants)
    (t1 t2 : RestyClient) (o : clientOptions) (visit1 visit2 : List (String × List String))
    (requestEndpoint : String) (data1 data2 : GoValue) (expectedCode : Int)
    (hvisit1 : visit1.Perm o.customHeaders) (hvisit2 : visit2.Perm o.customHeaders)
    (hdistinct : (writtenNames o.customHeaders).Nodup)
    (hsame : ∀ (verb url : String) (r1 r2 : RestyRequest), sameRequest r1 r2 →
      t2.execute verb url r2 = t1.execute verb url r1) :
    (RequestSteps rt k ⟨some t1, o⟩ visit1 MethodGet requestEndpoint data1 expectedCode).1 =
      ⟨some t1, o⟩ ∧
    (∃ req1 req2 : RestyRequest,
      (RequestSteps rt k ⟨some t1, o⟩ visit1 MethodGet requestEndpoint data1
          expectedCode).2.calls = [⟨MethodGet, o.apiURL ++ requestEndpoint, req1⟩] ∧
      (RequestSteps rt k
          ⟨some t2, (RequestSteps rt k ⟨some t1, o⟩ visit1 MethodGet requestEndpoint data1
            expectedCode).1.options⟩
          visit2 MethodGet requestEndpoint data2 expectedCode).2.calls =
        [⟨MethodGet, o.apiURL ++ requestEndpoint, req2⟩] ∧
      sameRequest req1 req2) ∧
    (RequestSteps rt k
        ⟨some t2, (RequestSteps rt k ⟨some t1, o⟩ visit1 MethodGet requestEndpoint data1
          expectedCode).1.options⟩
        visit2 MethodGet requestEndpoint data2 expectedCode).2.outcome =
      (RequestSteps rt k ⟨some t1, o⟩ visit1 MethodGet requestEndpoint data1
        expectedCode).2.outcome ∧
    (∀ (r1 : StandardResponse) (e1 : Option GoError),
      (RequestSteps rt k ⟨some t1, o⟩ visit1 MethodGet requestEndpoint data1
          expectedCode).2.outcome = .returned r1 e1 →
      ∃ r2 : StandardResponse,
        (RequestSteps rt k
            ⟨some t2, (RequestSteps rt k ⟨some t1, o⟩ visit1 MethodGet requestEndpoint data1
              expectedCode).1.options⟩
            visit2 MethodGet requestEndpoint data2 expectedCode).2.outcome =
          .returned r2 e1 ∧
        r2.StatusCode = r1.StatusCode ∧ r2.Body = r1.Body) := by
  have hrec := RequestSteps_receiver rt k ⟨some t1, o⟩ visit1 MethodGet requestEndpoint data1
    expectedCode
  have hm : MethodGet ∈ [MethodGet, MethodPost, MethodPut, MethodDelete] := by simp
  have hb1 := buildRequest_without_body rt k t1 { o with customHeaders := visit1 } MethodGet
    data1 (Or.inl rfl)
  have hb2 := buildRequest_without_body rt k t2 { o with customHeaders := visit2 } MethodGet
    data2 (Or.inl rfl)
  have hnodup : (writtenNames visit1).Nodup :=
    (((hvisit1.filter _).map _).nodup_iff).mpr hdistinct
  have hreq : sameRequest
      (setCustomHeaders visit1
        { Header := (Header.Set [] "User-Agent" o.userAgent).Set k.fieldAPIKey o.apiKey
          Body := none
          trace := o.requestTracing })
      (setCustomHeaders visit2
        { Header := (Header.Set [] "User-Agent" o.userAgent).Set k.fieldAPIKey o.apiKey
          Body := none
          trace := o.requestTracing }) := by
    refine ⟨?_, ?_, ?_⟩
    · rw [setCustomHeaders_body, setCustomHeaders_body]
    · rw [setCustomHeaders_trace, setCustomHeaders_trace]
    · intro name
      exact setCustomHeaders_lookup_perm visit1 visit2 (hvisit1.trans hvisit2.symm) hnodup
        name _
  have hx := hsame MethodGet (o.apiURL ++ requestEndpoint) _ _ hreq
  have hcalls1 := Request_calls_of_build rt k t1 { o with customHeaders := visit1 } MethodGet
    requestEndpoint data1 expectedCode _ hm hb1
  have hcalls2 := Request_calls_of_build rt k t2 { o with customHeaders := visit2 } MethodGet
    requestEndpoint data2 expectedCode _ hm hb2
  have hout :
      (Request rt k ⟨some t2, { o with customHeaders := visit2 }⟩ MethodGet requestEndpoint
          data2 expectedCode).outcome =
        (Request rt k ⟨some t1, { o with customHeaders := visit1 }⟩ MethodGet requestEndpoint
          data1 expectedCode).outcome := by
    cases h1 : t1.execute MethodGet (o.apiURL ++ requestEndpoint)
        (setCustomHeaders visit1
          { Header := (Header.Set [] "User-Agent" o.userAgent).Set k.fieldAPIKey o.apiKey
            Body := none
            trace := o.requestTracing }) with
    | error e =>
      rw [h1] at hx
      rw [Request_of_transport_error rt k t1 { o with customHeaders := visit1 } MethodGet
          requestEndpoint data1 expectedCode _ e hm hb1 h1,
        Request_of_transport_error rt k t2 { o with customHeaders := visit2 } MethodGet
          requestEndpoint data2 expectedCode _ e hm hb2 hx]
    | ok resp =>
      rw [h1] at hx
      rw [Request_of_response rt k t1 { o with customHeaders := visit1 } MethodGet
          requestEndpoint data1 expectedCode _ resp hm hb1 h1,
        Request_of_response rt k t2 { o with customHeaders := visit2 } MethodGet
          requestEndpoint data2 expectedCode _ resp hm hb2 hx]
      rfl
  rw [hrec]
  simp only [RequestSteps_run]
  refine ⟨trivial, ⟨_, _, hcalls1, hcalls2, hreq⟩, hout, ?_⟩
  intro r1 e1 h
  exact ⟨r1, by rw [hout]; exact h, rfl, rfl⟩

/-- Instance of C19 as amended: two GET calls that visit two headers of distinct canonical
names in opposite orders, against a transport that answers by the header `X-A`. -/
theorem Request_get_repeatable_for_distinct_headers_witness :
    (RequestSteps stdlib sampleConstants
        ⟨some (answerByHeader "X-A" "1" okResponse notFoundResponse),
          (RequestSteps stdlib sampleConstants
            ⟨some (answerByHeader "X-A" "1" okResponse notFoundResponse),
              { sampleOptions with customHeaders := [("x-a", ["1"]), ("X-Trace", ["a", "b"])] }⟩
            [("x-a", ["1"]), ("X-Trace", ["a", "b"])] MethodGet "users/7" GoValue.null
            200).1.options⟩
        [("X-Trace", ["a", "b"]), ("x-a", ["1"])] MethodGet "users/7" emailPayload
        200).2.outcome =
      (RequestSteps stdlib sampleConstants
        ⟨some (answerByHeader "X-A" "1" okResponse notFoundResponse),
          { sampleOptions with customHeaders := [("x-a", ["1"]), ("X-Trace", ["a", "b"])] }⟩
        [("x-a", ["1"]), ("X-Trace", ["a", "b"])] MethodGet "users/7" GoValue.null
        200).2.outcome :=
  (Request_get_repeatable_for_distinct_headers stdlib sampleConstants
    (answerByHeader "X-A" "1" okResponse notFoundResponse)
    (answerByHeader "X-A" "1" okResponse notFoundResponse)
    { sampleOptions with customHeaders := [("x-a", ["1"]), ("X-Trace", ["a", "b"])] }
    [("x-a", ["1"]), ("X-Trace", ["a", "b"])] [("X-Trace", ["a", "b"]), ("x-a", ["1"])]
    "users/7" GoValue.null emailPayload 200
    (List.Perm.refl _) (List.Perm.swap _ _ _) (by decide)
    (by
      intro verb url r1 r2 h
      simp only [answerByHeader, h.2.2 "X-A"])).2.2.1

end TonicPow
